import Mathlib

/-!
# chakrashim `jsrtutils.cc`: helpers over the JSRT engine API

A shallow embedding of the helper functions of
`deps/chakrashim/src/jsrtutils.cc` and theorems about them.

Modelling conventions.

* The JSRT engine is external to the file.  It is a parameter: a record
  `Engine σ` of transition functions over an arbitrary engine state `σ`.
  Every entry point returns its status code, the value it leaves in its
  out-parameter (when it has one) and the next engine state.
* Every engine call made by a helper is appended to a trace, together with
  the status code it returned, so that "is (not) invoked" is a statement
  about the trace.
* A pointer parameter of a helper (`JsValueRef *result`, `void **data`, ...)
  is modelled by the content of the cell it points to: the helper receives
  the content on entry and returns the content on exit.  A cell that every
  path overwrites first is returned only.
* Handles (`JsValueRef`, `JsPropertyIdRef`, `void *`) are opaque machine
  words, modelled by `Nat`; the null handle is `0`.
-/

namespace jsrt

/-! ## Engine types -/

/-- The engine's status code (`JsErrorCode`, a C enumeration). -/
abbrev JsErrorCode := Nat

/-- Status `JsNoError = 0`. -/
def JsNoError : JsErrorCode := 0

/-- Status `JsErrorInvalidArgument`, the first code of the usage category
`0x10000`. -/
def JsErrorInvalidArgument : JsErrorCode := 0x10001

/-- A value handle. -/
abbrev JsValueRef := Nat

/-- The invalid (null) value handle. -/
def JS_INVALID_REFERENCE : JsValueRef := 0

/-- A property id handle. -/
abbrev JsPropertyIdRef := Nat

/-- An untyped pointer (`void *`). -/
abbrev VoidPtr := Nat

/-- The null pointer. -/
def nullptr : VoidPtr := 0

/-- A script cookie (`JsSourceContext`). -/
abbrev JsSourceContext := Nat

/-- A wide string (`const wchar_t *`): the characters before the
terminating NUL, or, for a pointer and length pair, the `length` characters
at the pointer. -/
abbrev WString := List Char

/-- A `double`.  The only operation this file applies to one is
`static_cast<unsigned int>`, which drops the fraction, so a double is
represented by its value truncated toward zero. -/
abbrev Double := Int

/-- The conversion `static_cast<unsigned int>` of a double, a 32-bit
unsigned integer.  C++ defines it only where the truncated value lies in the
range of the target type, where it is that value.  Elsewhere the behaviour is
undefined; there the model follows the x86-64 code compilers emit, a
truncating conversion to a signed 64-bit integer of which the low 32 bits
are kept (`-1.0` gives `4294967295`), with `0` for a value that does not fit
64 bits. -/
def static_cast_unsigned (d : Double) : Nat :=
  if -(2 ^ 63) ≤ d ∧ d < 2 ^ 63 then (d % 2 ^ 32).toNat else 0

/-- The implicit conversion of an `unsigned int` argument to an `int`
parameter (two's complement, 32 bits). -/
def unsignedToInt (n : Nat) : Int :=
  if n % 2 ^ 32 < 2 ^ 31 then (n % 2 ^ 32 : Nat) else (n % 2 ^ 32 : Nat) - 2 ^ 32

/-- The engine's value type tag (`JsValueType`, a C enumeration). -/
abbrev JsValueType := Nat

/-- Type tag `JsString`. -/
def JsString : JsValueType := 3

/-- The three-valued descriptor option of `jsrtutils.h`. -/
inductive PropertyDescriptorOptionValues where
  | True
  | False
  | None
  deriving DecidableEq, Repr

/-- The cached property ids this file asks the isolate for. -/
inductive CachedPropertyIdRef where
  | length
  | writable
  | enumerable
  | configurable
  | value
  | get
  | set
  deriving DecidableEq, Repr

/-- The current context shim, as far as this file reads it.  The class is
declared outside this file and is taken as a parameter. -/
structure ContextShim where
  GetTrue : JsValueRef
  GetFalse : JsValueRef
  GetCloneObjectFunction : JsValueRef

/-- The current isolate shim, as far as this file reads it.  The class is
declared outside this file and is taken as a parameter. -/
structure IsolateShim where
  GetCurrentContextShim : ContextShim
  GetCachedPropertyIdRef : CachedPropertyIdRef → JsPropertyIdRef

/-! ## The engine and the trace of calls -/

/-- An engine call with its input arguments. -/
inductive Call where
  | CallFunction (func arg1 arg2 : JsValueRef)
  | JsGetPrototype (object : JsValueRef)
  | JsSetPrototype (object prototype : JsValueRef)
  | JsGetPropertyIdFromName (name : WString)
  | JsGetPropertyIdFromSymbol (symbol : JsValueRef)
  | JsGetProperty (object : JsValueRef) (propertyId : JsPropertyIdRef)
  | JsSetProperty (object : JsValueRef) (propertyId : JsPropertyIdRef)
      (value : JsValueRef) (useStrictRules : Bool)
  | JsDefineProperty (object : JsValueRef) (propertyId : JsPropertyIdRef)
      (propertyDescriptor : JsValueRef)
  | JsCallFunction (function : JsValueRef) (arguments : List JsValueRef)
      (argumentCount : Nat)
  | JsGetExternalData (object : JsValueRef)
  | JsCreateObject
  | JsStringToPointer (value : JsValueRef)
  | JsConvertValueToString (value : JsValueRef)
  | JsParseScript (script : WString) (sourceContext : JsSourceContext)
      (sourceUrl : WString)
  | JsGetValueType (value : JsValueRef)
  | JsNumberToDouble (value : JsValueRef)
  | JsIntToNumber (intValue : Int)
  | JsGetIndexedProperty (object index : JsValueRef)
  | JsEquals (object1 object2 : JsValueRef)
  deriving DecidableEq, Repr

/-- A trace entry: the call and the status code it returned. -/
abbrev Event := Call × JsErrorCode

/-- The external engine.  Each field is one entry point: it maps the input
arguments and the engine state to the status code, the content of the
out-parameter after the call, and the next engine state.  `CallFunction` is
the two-argument call helper of `jsrtutils.h`, whose body is not in this
file. -/
structure Engine (σ : Type) where
  CallFunction : JsValueRef → JsValueRef → JsValueRef → σ →
    JsErrorCode × JsValueRef × σ
  JsGetPrototype : JsValueRef → σ → JsErrorCode × JsValueRef × σ
  JsSetPrototype : JsValueRef → JsValueRef → σ → JsErrorCode × Unit × σ
  JsGetPropertyIdFromName : WString → σ → JsErrorCode × JsPropertyIdRef × σ
  JsGetPropertyIdFromSymbol : JsValueRef → σ →
    JsErrorCode × JsPropertyIdRef × σ
  JsGetProperty : JsValueRef → JsPropertyIdRef → σ →
    JsErrorCode × JsValueRef × σ
  JsSetProperty : JsValueRef → JsPropertyIdRef → JsValueRef → Bool → σ →
    JsErrorCode × Unit × σ
  JsDefineProperty : JsValueRef → JsPropertyIdRef → JsValueRef → σ →
    JsErrorCode × Bool × σ
  JsCallFunction : JsValueRef → List JsValueRef → Nat → σ →
    JsErrorCode × JsValueRef × σ
  JsGetExternalData : JsValueRef → σ → JsErrorCode × VoidPtr × σ
  JsCreateObject : σ → JsErrorCode × JsValueRef × σ
  JsStringToPointer : JsValueRef → σ → JsErrorCode × WString × σ
  JsConvertValueToString : JsValueRef → σ → JsErrorCode × JsValueRef × σ
  JsParseScript : WString → JsSourceContext → WString → σ →
    JsErrorCode × JsValueRef × σ
  JsGetValueType : JsValueRef → σ → JsErrorCode × JsValueType × σ
  JsNumberToDouble : JsValueRef → σ → JsErrorCode × Double × σ
  JsIntToNumber : Int → σ → JsErrorCode × JsValueRef × σ
  JsGetIndexedProperty : JsValueRef → JsValueRef → σ →
    JsErrorCode × JsValueRef × σ
  JsEquals : JsValueRef → JsValueRef → σ → JsErrorCode × Bool × σ

/-- The state a helper runs in: the engine state and the calls made so
far, oldest first. -/
structure World (σ : Type) where
  engine : σ
  trace : List Event

/-- A helper: a computation over the world. -/
abbrev Jsrt (σ : Type) := StateM (World σ)

/-- Perform one engine call: step the engine and log the call with its
status code. -/
def invoke {σ α : Type} (c : Call) (f : σ → JsErrorCode × α × σ) :
    Jsrt σ (JsErrorCode × α) :=
  fun w =>
    let r := f w.engine
    ((r.1, r.2.1), ⟨r.2.2, w.trace ++ [(c, r.1)]⟩)

variable {σ : Type}

/-! ### The engine's entry points as logged calls

Each definition below is the call of one entry point as the helpers see it:
`invoke` on the engine's transition function, returning the status code and
the out-parameter. -/

def CallFunction (E : Engine σ) (func arg1 arg2 : JsValueRef) :
    Jsrt σ (JsErrorCode × JsValueRef) :=
  invoke (.CallFunction func arg1 arg2) (E.CallFunction func arg1 arg2)

def JsGetPrototype (E : Engine σ) (object : JsValueRef) :
    Jsrt σ (JsErrorCode × JsValueRef) :=
  invoke (.JsGetPrototype object) (E.JsGetPrototype object)

def JsSetPrototype (E : Engine σ) (object prototype : JsValueRef) :
    Jsrt σ JsErrorCode := do
  let r ← invoke (.JsSetPrototype object prototype)
    (E.JsSetPrototype object prototype)
  return r.1

def JsGetPropertyIdFromName (E : Engine σ) (name : WString) :
    Jsrt σ (JsErrorCode × JsPropertyIdRef) :=
  invoke (.JsGetPropertyIdFromName name) (E.JsGetPropertyIdFromName name)

def JsGetPropertyIdFromSymbol (E : Engine σ) (symbol : JsValueRef) :
    Jsrt σ (JsErrorCode × JsPropertyIdRef) :=
  invoke (.JsGetPropertyIdFromSymbol symbol)
    (E.JsGetPropertyIdFromSymbol symbol)

def JsGetProperty (E : Engine σ) (object : JsValueRef)
    (propertyId : JsPropertyIdRef) : Jsrt σ (JsErrorCode × JsValueRef) :=
  invoke (.JsGetProperty object propertyId) (E.JsGetProperty object propertyId)

def JsSetProperty (E : Engine σ) (object : JsValueRef)
    (propertyId : JsPropertyIdRef) (value : JsValueRef)
    (useStrictRules : Bool) : Jsrt σ JsErrorCode := do
  let r ← invoke (.JsSetProperty object propertyId value useStrictRules)
    (E.JsSetProperty object propertyId value useStrictRules)
  return r.1

def JsDefineProperty (E : Engine σ) (object : JsValueRef)
    (propertyId : JsPropertyIdRef) (propertyDescriptor : JsValueRef) :
    Jsrt σ (JsErrorCode × Bool) :=
  invoke (.JsDefineProperty object propertyId propertyDescriptor)
    (E.JsDefineProperty object propertyId propertyDescriptor)

def JsCallFunction (E : Engine σ) (function : JsValueRef)
    (arguments : List JsValueRef) (argumentCount : Nat) :
    Jsrt σ (JsErrorCode × JsValueRef) :=
  invoke (.JsCallFunction function arguments argumentCount)
    (E.JsCallFunction function arguments argumentCount)

def JsGetExternalData (E : Engine σ) (object : JsValueRef) :
    Jsrt σ (JsErrorCode × VoidPtr) :=
  invoke (.JsGetExternalData object) (E.JsGetExternalData object)

def JsCreateObject (E : Engine σ) : Jsrt σ (JsErrorCode × JsValueRef) :=
  invoke .JsCreateObject E.JsCreateObject

/-- The engine's `JsStringToPointer`: the two out-parameters are the
character buffer and its length. -/
def JsStringToPointer (E : Engine σ) (value : JsValueRef) :
    Jsrt σ (JsErrorCode × WString × Nat) := do
  let r ← invoke (.JsStringToPointer value) (E.JsStringToPointer value)
  return (r.1, r.2, r.2.length)

def JsConvertValueToString (E : Engine σ) (value : JsValueRef) :
    Jsrt σ (JsErrorCode × JsValueRef) :=
  invoke (.JsConvertValueToString value) (E.JsConvertValueToString value)

def JsParseScript (E : Engine σ) (script : WString)
    (sourceContext : JsSourceContext) (sourceUrl : WString) :
    Jsrt σ (JsErrorCode × JsValueRef) :=
  invoke (.JsParseScript script sourceContext sourceUrl)
    (E.JsParseScript script sourceContext sourceUrl)

def JsGetValueType (E : Engine σ) (value : JsValueRef) :
    Jsrt σ (JsErrorCode × JsValueType) :=
  invoke (.JsGetValueType value) (E.JsGetValueType value)

def JsNumberToDouble (E : Engine σ) (value : JsValueRef) :
    Jsrt σ (JsErrorCode × Double) :=
  invoke (.JsNumberToDouble value) (E.JsNumberToDouble value)

def JsIntToNumber (E : Engine σ) (intValue : Int) :
    Jsrt σ (JsErrorCode × JsValueRef) :=
  invoke (.JsIntToNumber intValue) (E.JsIntToNumber intValue)

def JsGetIndexedProperty (E : Engine σ) (object index : JsValueRef) :
    Jsrt σ (JsErrorCode × JsValueRef) :=
  invoke (.JsGetIndexedProperty object index)
    (E.JsGetIndexedProperty object index)

def JsEquals (E : Engine σ) (object1 object2 : JsValueRef) :
    Jsrt σ (JsErrorCode × Bool) :=
  invoke (.JsEquals object1 object2) (E.JsEquals object1 object2)

/-! ## The helpers of `jsrtutils.cc` -/

/-- The property-id overload of `CallProperty` (lines 120-135). -/
def CallProperty (E : Engine σ) (ref : JsValueRef) (idRef : JsPropertyIdRef)
    (arguments : List JsValueRef) (argumentCount : Nat)
    (result : JsValueRef) : Jsrt σ (JsErrorCode × JsValueRef) := do
  let (error, propertyRef) ← JsGetProperty E ref idRef
  if error ≠ JsNoError then
    return (error, result)
  let (error, result) ← JsCallFunction E propertyRef arguments argumentCount
  return (error, result)

/-- The property-name overload of `CallProperty` (lines 137-151). -/
def CallPropertyByName (E : Engine σ) (ref : JsValueRef)
    (propertyName : WString) (arguments : List JsValueRef)
    (argumentCount : Nat) (result : JsValueRef) :
    Jsrt σ (JsErrorCode × JsValueRef) := do
  let (error, idRef) ← JsGetPropertyIdFromName E propertyName
  if error ≠ JsNoError then
    return (error, result)
  CallProperty E ref idRef arguments argumentCount result

/-- The helper `CloneObject` (lines 254-277).  The block guarded by
`clonePrototype` declares its own `error`, which hides the outer one until
the block ends. -/
def CloneObject (E : Engine σ) (contextShim : ContextShim)
    (source target : JsValueRef) (clonePrototype : Bool) :
    Jsrt σ JsErrorCode := do
  let cloneObjectFunction := contextShim.GetCloneObjectFunction
  let (error, _resultRef) ← CallFunction E cloneObjectFunction source target
  if error ≠ JsNoError then
    return error
  if clonePrototype then
    let (status, prototypeRef) ← JsGetPrototype E source
    let mut error := status
    if error ≠ JsNoError then
      return error
    error ← JsSetPrototype E target prototypeRef
  return error

/-- The property-id overload of `GetExternalData` (lines 491-509). -/
def GetExternalData (E : Engine σ) (ref : JsValueRef)
    (idRef : JsPropertyIdRef) (data : VoidPtr) :
    Jsrt σ (JsErrorCode × VoidPtr) := do
  let mut data := data
  let (status, externalObject) ← JsGetProperty E ref idRef
  let mut error := status
  if error ≠ JsNoError then
    return (error, data)
  (error, data) ← JsGetExternalData E externalObject
  if error = JsErrorInvalidArgument then
    data := nullptr
    error := JsNoError
  return (error, data)

/-- The helper `ToString` (lines 535-555).  The out-parameter `size` is a
dummy local and is dropped. -/
def ToString (E : Engine σ) (ref : JsValueRef) (strRef : JsValueRef)
    (str : WString) (alreadyString : Bool) :
    Jsrt σ (JsErrorCode × JsValueRef × WString) := do
  let mut strRef := strRef
  let mut error := JsNoError
  if alreadyString then
    strRef := ref
  else
    (error, strRef) ← JsConvertValueToString E ref
    if error ≠ JsNoError then
      return (error, strRef, str)
  let (status, str, _size) ← JsStringToPointer E strRef
  error := status
  return (error, strRef, str)

/-- The helper `GetPropertyDescriptorOptionValue` (lines 557-561). -/
def GetPropertyDescriptorOptionValue (b : Bool) :
    PropertyDescriptorOptionValues :=
  if b then PropertyDescriptorOptionValues.True
  else PropertyDescriptorOptionValues.False

/-- The option-values overload of `CreatePropertyDescriptor`
(lines 563-653). -/
def CreatePropertyDescriptor (E : Engine σ) (isolateShim : IsolateShim)
    (writable enumerable configurable : PropertyDescriptorOptionValues)
    (value getter setter : JsValueRef) :
    Jsrt σ (JsErrorCode × JsValueRef) := do
  let (status, descriptor) ← JsCreateObject E
  let mut error := status
  if error ≠ JsNoError then
    return (error, descriptor)
  let contextShim := isolateShim.GetCurrentContextShim
  let trueRef := contextShim.GetTrue
  let falseRef := contextShim.GetFalse
  -- set writable
  if writable ≠ PropertyDescriptorOptionValues.None then
    let writablePropertyIdRef :=
      isolateShim.GetCachedPropertyIdRef CachedPropertyIdRef.writable
    let writableRef :=
      if writable = PropertyDescriptorOptionValues.True then trueRef
      else falseRef
    error ← JsSetProperty E descriptor writablePropertyIdRef writableRef false
    if error ≠ JsNoError then
      return (error, descriptor)
  -- set enumerable
  if enumerable ≠ PropertyDescriptorOptionValues.None then
    let enumerablePropertyIdRef :=
      isolateShim.GetCachedPropertyIdRef CachedPropertyIdRef.enumerable
    let enumerableRef :=
      if enumerable = PropertyDescriptorOptionValues.True then trueRef
      else falseRef
    error ← JsSetProperty E descriptor enumerablePropertyIdRef enumerableRef
      false
    if error ≠ JsNoError then
      return (error, descriptor)
  -- set configurable
  if configurable ≠ PropertyDescriptorOptionValues.None then
    let configurablePropertyIdRef :=
      isolateShim.GetCachedPropertyIdRef CachedPropertyIdRef.configurable
    let configurableRef :=
      if configurable = PropertyDescriptorOptionValues.True then trueRef
      else falseRef
    error ← JsSetProperty E descriptor configurablePropertyIdRef
      configurableRef false
    if error ≠ JsNoError then
      return (error, descriptor)
  -- set value
  if value ≠ JS_INVALID_REFERENCE then
    let valuePropertyIdRef :=
      isolateShim.GetCachedPropertyIdRef CachedPropertyIdRef.value
    error ← JsSetProperty E descriptor valuePropertyIdRef value false
    if error ≠ JsNoError then
      return (error, descriptor)
  -- set getter if needed
  if getter ≠ JS_INVALID_REFERENCE then
    let getterPropertyIdRef :=
      isolateShim.GetCachedPropertyIdRef CachedPropertyIdRef.get
    error ← JsSetProperty E descriptor getterPropertyIdRef getter false
    if error ≠ JsNoError then
      return (error, descriptor)
  -- set setter if needed
  if setter ≠ JS_INVALID_REFERENCE then
    let setterPropertyIdRef :=
      isolateShim.GetCachedPropertyIdRef CachedPropertyIdRef.set
    error ← JsSetProperty E descriptor setterPropertyIdRef setter false
    if error ≠ JsNoError then
      return (error, descriptor)
  return (JsNoError, descriptor)

/-- The property-id overload of `DefineProperty` (lines 670-693). -/
def DefineProperty (E : Engine σ) (isolateShim : IsolateShim)
    (object : JsValueRef) (propertyIdRef : JsPropertyIdRef)
    (writable enumerable configurable : PropertyDescriptorOptionValues)
    (value getter setter : JsValueRef) : Jsrt σ JsErrorCode := do
  let (status, descriptor) ← CreatePropertyDescriptor E isolateShim
    writable enumerable configurable value getter setter
  let mut error := status
  if error ≠ JsNoError then
    return error
  let (status, result) ← JsDefineProperty E object propertyIdRef descriptor
  error := status
  if error = JsNoError ∧ result = false then
    return JsErrorInvalidArgument
  return error

/-- The value overload of `GetPropertyIdFromName` (lines 717-733). -/
def GetPropertyIdFromName (E : Engine σ) (nameRef : JsValueRef)
    (idRef : JsPropertyIdRef) : Jsrt σ (JsErrorCode × JsPropertyIdRef) := do
  -- Expect the name be either a String or a Symbol
  let (error, propertyName, _propertyNameSize) ← JsStringToPointer E nameRef
  if error ≠ JsNoError then
    if error = JsErrorInvalidArgument then
      return (← JsGetPropertyIdFromSymbol E nameRef)
    else
      return (error, idRef)
  let (error, idRef) ← JsGetPropertyIdFromName E propertyName
  return (error, idRef)

/-- The helper `GetPropertyIdFromValue` (lines 735-750). -/
def GetPropertyIdFromValue (E : Engine σ) (valueRef : JsValueRef)
    (idRef : JsPropertyIdRef) : Jsrt σ (JsErrorCode × JsPropertyIdRef) := do
  let mut valueRef := valueRef
  let mut idRef := idRef
  let mut error := JsNoError
  (error, idRef) ← GetPropertyIdFromName E valueRef idRef
  if error = JsErrorInvalidArgument then
    (error, valueRef) ← JsConvertValueToString E valueRef
    if error ≠ JsNoError then
      return (error, idRef)
    (error, idRef) ← GetPropertyIdFromName E valueRef idRef
  return (error, idRef)

/-- The tag `ParseScript` puts before a strict-mode script. -/
def useStrictTag : WString := "'use strict'; ".toList

/-- The helper `ParseScript` (lines 831-844). -/
def ParseScript (E : Engine σ) (script : WString)
    (sourceContext : JsSourceContext) (sourceUrl : WString)
    (isStrictMode : Bool) : Jsrt σ (JsErrorCode × JsValueRef) := do
  if isStrictMode then
    -- do not append new line so the line numbers on error stack are correct
    JsParseScript E (useStrictTag ++ script) sourceContext sourceUrl
  else
    JsParseScript E script sourceContext sourceUrl

/-- ASCII lower-casing of a wide character, the "C" locale `towlower` that
the C runtime's `_wcsnicmp` applies. -/
def towlower (c : Char) : Char := c.toLower

/-- The C runtime's `_wcsnicmp (first, last, count)`: compare at most
`count` characters, lower-cased, stopping after a NUL or the first
difference; the result is the difference of the last pair compared.  A read
at the end of the modelled characters yields the terminating NUL. -/
def _wcsnicmp : WString → WString → Nat → Int
  | _, _, 0 => 0
  | first, last, count + 1 =>
    let f := towlower (first.headD (Char.ofNat 0))
    let l := towlower (last.headD (Char.ofNat 0))
    if count ≠ 0 ∧ f ≠ Char.ofNat 0 ∧ f = l then
      _wcsnicmp first.tail last.tail count
    else
      (f.toNat : Int) - (l.toNat : Int)

/-- The comparator that `IsCaseInsensitiveStringValueInArray` hands to
`IsValueInArray` (the lambda of lines 339-379). -/
def IsCaseInsensitiveStringValueInArray.comperator (E : Engine σ)
    (first second : JsValueRef) : Jsrt σ (JsErrorCode × Bool) := do
  let mut areEqual := false
  let (status, type) ← JsGetValueType E first
  let mut error := status
  if error ≠ JsNoError then
    return (error, areEqual)
  if type ≠ JsString then
    return (JsNoError, areEqual)
  let (status, type) ← JsGetValueType E second
  error := status
  if error ≠ JsNoError then
    return (error, areEqual)
  if type ≠ JsString then
    return (JsNoError, areEqual)
  let (status, firstPtr, firstLength) ← JsStringToPointer E first
  error := status
  if error ≠ JsNoError then
    return (error, areEqual)
  let (status, secondPtr, secondLength) ← JsStringToPointer E second
  error := status
  if error ≠ JsNoError then
    return (error, areEqual)
  let maxCount := min firstLength secondLength
  areEqual := decide (_wcsnicmp firstPtr secondPtr maxCount = 0)
  return (JsNoError, areEqual)

/-- The helper `GetArrayLength` (lines 227-246). -/
def GetArrayLength (E : Engine σ) (isolateShim : IsolateShim)
    (arrayRef : JsValueRef) (arraySize : Nat) :
    Jsrt σ (JsErrorCode × Nat) := do
  let mut arraySize := arraySize
  let arrayLengthPropertyIdRef :=
    isolateShim.GetCachedPropertyIdRef CachedPropertyIdRef.length
  let (status, lengthRef) ← JsGetProperty E arrayRef arrayLengthPropertyIdRef
  let mut error := status
  if error ≠ JsNoError then
    return (error, arraySize)
  let (status, sizeInDouble) ← JsNumberToDouble E lengthRef
  error := status
  arraySize := static_cast_unsigned sizeInDouble
  return (error, arraySize)

/-- A comparator handed to `IsValueInArray`
(`std::function<JsErrorCode (JsValueRef, JsValueRef, bool*)>`): it receives
the two values and the content of the `bool` cell, and returns its status
code and the content of the cell on exit. -/
abbrev Comparator (σ : Type) :=
  JsValueRef → JsValueRef → Bool → Jsrt σ (JsErrorCode × Bool)

/-- The `for` loop of `IsValueInArray` (lines 300-325), entered with
`remaining = length - index` iterations to go: the test `index < length` is
`remaining ≠ 0`, and `index++` takes one off `remaining`.  A null
`comperator` is `none`.  The value after the loop is that of the final
`return JsNoError` (line 327). -/
def IsValueInArray.loop (E : Engine σ) (arrayRef valueRef : JsValueRef)
    (comperator : Option (Comparator σ)) :
    (remaining : Nat) → (index : Nat) → (result : Bool) →
      Jsrt σ (JsErrorCode × Bool)
  | 0, _, result => pure (JsNoError, result)
  | remaining + 1, index, result => do
    let mut result := result
    let (status, indexValue) ← JsIntToNumber E (unsignedToInt index)
    let mut error := status
    if error ≠ JsNoError then
      return (error, result)
    let (status, itemRef) ← JsGetIndexedProperty E arrayRef indexValue
    error := status
    if error ≠ JsNoError then
      return (error, result)
    match comperator with
    | some compare =>
      (error, result) ← compare valueRef itemRef result
    | none =>
      (error, result) ← JsEquals E itemRef valueRef
    if error ≠ JsNoError then
      return (error, result)
    if result then
      return (JsNoError, result)
    IsValueInArray.loop E arrayRef valueRef comperator remaining (index + 1)
      result

/-- The comparator overload of `IsValueInArray` (lines 287-328).  The local
`length` is uninitialised before `GetArrayLength` and read only after it
succeeded. -/
def IsValueInArray (E : Engine σ) (isolateShim : IsolateShim)
    (arrayRef valueRef : JsValueRef) (comperator : Option (Comparator σ))
    (result : Bool) : Jsrt σ (JsErrorCode × Bool) := do
  let mut result := result
  result := false
  let (error, length) ← GetArrayLength E isolateShim arrayRef 0
  if error ≠ JsNoError then
    return (error, result)
  IsValueInArray.loop E arrayRef valueRef comperator length 0 result

/-- The overload of `IsValueInArray` without a comparator
(lines 330-334). -/
def IsValueInArrayByEquals (E : Engine σ) (isolateShim : IsolateShim)
    (arrayRef valueRef : JsValueRef) (result : Bool) :
    Jsrt σ (JsErrorCode × Bool) :=
  IsValueInArray E isolateShim arrayRef valueRef none result

/-- The helper `IsCaseInsensitiveStringValueInArray` (lines 336-381). -/
def IsCaseInsensitiveStringValueInArray (E : Engine σ)
    (isolateShim : IsolateShim) (arrayRef valueRef : JsValueRef)
    (result : Bool) : Jsrt σ (JsErrorCode × Bool) :=
  IsValueInArray E isolateShim arrayRef valueRef
    (some (fun first second _ =>
      IsCaseInsensitiveStringValueInArray.comperator E first second))
    result

/-- Modelled from the spec: the `ReadOnly` bit of `v8::PropertyAttribute`,
an enumeration of `v8.h`, which is not part of this file; bit 0. -/
def v8.ReadOnly : Nat := 1 <<< 0

/-- Modelled from the spec: the `DontEnum` bit of `v8::PropertyAttribute`,
an enumeration of `v8.h`, which is not part of this file; bit 1. -/
def v8.DontEnum : Nat := 1 <<< 1

/-- Modelled from the spec: the `DontDelete` bit of `v8::PropertyAttribute`,
an enumeration of `v8.h`, which is not part of this file; bit 2. -/
def v8.DontDelete : Nat := 1 <<< 2

/-- The `v8::PropertyAttribute` overload of `CreatePropertyDescriptor`
(lines 655-668); `!(attributes & bit)` is `(attributes &&& bit) == 0`. -/
def CreatePropertyDescriptorFromAttributes (E : Engine σ)
    (isolateShim : IsolateShim) (attributes : Nat)
    (value _getter _setter : JsValueRef) :
    Jsrt σ (JsErrorCode × JsValueRef) :=
  CreatePropertyDescriptor E isolateShim
    (GetPropertyDescriptorOptionValue ((attributes &&& v8.ReadOnly) == 0))
    (GetPropertyDescriptorOptionValue ((attributes &&& v8.DontEnum) == 0))
    (GetPropertyDescriptorOptionValue ((attributes &&& v8.DontDelete) == 0))
    value
    JS_INVALID_REFERENCE
    JS_INVALID_REFERENCE

/-! ## Notions used to state the properties -/

/-- The property a flag option asks for: none for `None`, else the flag's
property, set to the context's true value for `True` and to its false value
otherwise. -/
def requestedFlag (isolateShim : IsolateShim) (id : CachedPropertyIdRef)
    (option : PropertyDescriptorOptionValues) :
    List (JsPropertyIdRef × JsValueRef) :=
  if option ≠ PropertyDescriptorOptionValues.None then
    [(isolateShim.GetCachedPropertyIdRef id,
      if option = PropertyDescriptorOptionValues.True then
        isolateShim.GetCurrentContextShim.GetTrue
      else isolateShim.GetCurrentContextShim.GetFalse)]
  else []

/-- The property a reference asks for: none for the invalid reference, else
the property set to that reference. -/
def requestedRef (isolateShim : IsolateShim) (id : CachedPropertyIdRef)
    (ref : JsValueRef) : List (JsPropertyIdRef × JsValueRef) :=
  if ref ≠ JS_INVALID_REFERENCE then
    [(isolateShim.GetCachedPropertyIdRef id, ref)]
  else []

/-- The properties a descriptor request asks for, as pairs of property id
and value, in the order writable, enumerable, configurable, value, get,
set. -/
def requestedProperties (isolateShim : IsolateShim)
    (writable enumerable configurable : PropertyDescriptorOptionValues)
    (value getter setter : JsValueRef) : List (JsPropertyIdRef × JsValueRef) :=
  requestedFlag isolateShim CachedPropertyIdRef.writable writable ++
  requestedFlag isolateShim CachedPropertyIdRef.enumerable enumerable ++
  requestedFlag isolateShim CachedPropertyIdRef.configurable configurable ++
  requestedRef isolateShim CachedPropertyIdRef.value value ++
  requestedRef isolateShim CachedPropertyIdRef.get getter ++
  requestedRef isolateShim CachedPropertyIdRef.set setter

/-- Set the listed properties on `descriptor` in order with `JsSetProperty`
(non-strict), returning at the first failure: the shape of the six blocks of
`CreatePropertyDescriptor`, as a recursion over the list of requests. -/
def setProps (E : Engine σ) (descriptor : JsValueRef) :
    List (JsPropertyIdRef × JsValueRef) → Jsrt σ (JsErrorCode × JsValueRef)
  | [] => pure (JsNoError, descriptor)
  | p :: ps => do
    let error ← JsSetProperty E descriptor p.1 p.2 false
    if error ≠ JsNoError then
      return (error, descriptor)
    setProps E descriptor ps

/-- The events a world has logged since an earlier world. -/
def World.since (after before : World σ) : List Event :=
  after.trace.drop before.trace.length

/-- The line terminators of ECMAScript: LF, CR, LS and PS. -/
def isLineTerminator (c : Char) : Bool :=
  c.toNat = 0x0A || c.toNat = 0x0D || c.toNat = 0x2028 || c.toNat = 0x2029

/-- The number of line breaks in a text; a CR directly followed by LF is one
line break. -/
def lineBreaks : WString → Nat
  | [] => 0
  | c :: rest =>
    if c.toNat = 0x0D ∧ (rest.head?.map Char.toNat) = some 0x0A then
      lineBreaks rest
    else
      (if isLineTerminator c then 1 else 0) + lineBreaks rest

/-- The line (counted from zero) on which the character at offset `i` of a
text lies: the number of line breaks before it. -/
def lineNumber (text : WString) (i : Nat) : Nat :=
  lineBreaks (text.take i)

/-- One examination of the element at `index`, with the `bool` cell false
on entry: make the index a number, fetch the element, compare it with the
value (with the comparator, or with `JsEquals` when there is none).  The
status is that of the first failing call, or of the comparison. -/
def examine (E : Engine σ) (arrayRef valueRef : JsValueRef)
    (comperator : Option (Comparator σ)) (index : Nat) :
    Jsrt σ (JsErrorCode × Bool) := do
  let (error, indexValue) ← JsIntToNumber E (unsignedToInt index)
  if error ≠ JsNoError then
    return (error, false)
  let (error, itemRef) ← JsGetIndexedProperty E arrayRef indexValue
  if error ≠ JsNoError then
    return (error, false)
  match comperator with
  | some compare => compare valueRef itemRef false
  | none => JsEquals E itemRef valueRef

/-- The world before the element `first + k` is examined, when the elements
`first`, `first + 1`, ... are examined one after the other from the world
`w`. -/
def worldBefore (E : Engine σ) (arrayRef valueRef : JsValueRef)
    (comperator : Option (Comparator σ)) (first : Nat) (w : World σ) :
    Nat → World σ
  | 0 => w
  | k + 1 =>
    (examine E arrayRef valueRef comperator (first + k)
      (worldBefore E arrayRef valueRef comperator first w k)).2

/-- The status and the verdict of examining the element `first + k` in its
turn: whether the element compares equal to the value. -/
def outcome (E : Engine σ) (arrayRef valueRef : JsValueRef)
    (comperator : Option (Comparator σ)) (first : Nat) (w : World σ)
    (k : Nat) : JsErrorCode × Bool :=
  (examine E arrayRef valueRef comperator (first + k)
    (worldBefore E arrayRef valueRef comperator first w k)).1

/-- One examination of the element at index `index` itself, with the `bool`
cell false on entry: make the number `index`, fetch the element the array
holds at that number, compare it with the value (with the comparator, or
with `JsEquals` when there is none).  It differs from `examine` in the number
it asks for: the index, not the index converted to a 32-bit `int`. -/
def examineElement (E : Engine σ) (arrayRef valueRef : JsValueRef)
    (comperator : Option (Comparator σ)) (index : Nat) :
    Jsrt σ (JsErrorCode × Bool) := do
  let (error, indexValue) ← JsIntToNumber E (Int.ofNat index)
  if error ≠ JsNoError then
    return (error, false)
  let (error, itemRef) ← JsGetIndexedProperty E arrayRef indexValue
  if error ≠ JsNoError then
    return (error, false)
  match comperator with
  | some compare => compare valueRef itemRef false
  | none => JsEquals E itemRef valueRef

/-- The world reached from `w` once the elements at the indices `0` to
`k - 1` have been examined, one after the other in increasing order. -/
def worldAfterElements (E : Engine σ) (arrayRef valueRef : JsValueRef)
    (comperator : Option (Comparator σ)) (w : World σ) : Nat → World σ
  | 0 => w
  | k + 1 =>
    (examineElement E arrayRef valueRef comperator k
      (worldAfterElements E arrayRef valueRef comperator w k)).2

/-- The status and the verdict of examining the element at index `k` in its
turn: whether the element at index `k` compares equal to the value. -/
def elementOutcome (E : Engine σ) (arrayRef valueRef : JsValueRef)
    (comperator : Option (Comparator σ)) (w : World σ) (k : Nat) :
    JsErrorCode × Bool :=
  (examineElement E arrayRef valueRef comperator k
    (worldAfterElements E arrayRef valueRef comperator w k)).1

/-! ## A scripted engine for concrete runs -/

/-- An engine whose state is the list of status codes its next calls
return, one per call, `JsNoError` once the list is used up.  The handles it
hands out are fixed; `strings` gives the characters of each value and
`defined` the boolean `JsDefineProperty` reports.  Every array has the three
elements `1`, `2`, `3`: the number for index `i` is the handle `1000 + i`,
and two values are equal when their handles are. -/
def scriptedEngine (strings : JsValueRef → WString) (defined : Bool) :
    Engine (List JsErrorCode) where
  CallFunction := fun _ _ _ s => (s.headD JsNoError, 100, s.tail)
  JsGetPrototype := fun _ s => (s.headD JsNoError, 200, s.tail)
  JsSetPrototype := fun _ _ s => (s.headD JsNoError, (), s.tail)
  JsGetPropertyIdFromName := fun _ s => (s.headD JsNoError, 300, s.tail)
  JsGetPropertyIdFromSymbol := fun _ s => (s.headD JsNoError, 400, s.tail)
  JsGetProperty := fun _ _ s => (s.headD JsNoError, 500, s.tail)
  JsSetProperty := fun _ _ _ _ s => (s.headD JsNoError, (), s.tail)
  JsDefineProperty := fun _ _ _ s => (s.headD JsNoError, defined, s.tail)
  JsCallFunction := fun _ _ _ s => (s.headD JsNoError, 600, s.tail)
  JsGetExternalData := fun _ s => (s.headD JsNoError, 700, s.tail)
  JsCreateObject := fun s => (s.headD JsNoError, 800, s.tail)
  JsStringToPointer := fun v s => (s.headD JsNoError, strings v, s.tail)
  JsConvertValueToString := fun v s => (s.headD JsNoError, v + 1, s.tail)
  JsParseScript := fun _ _ _ s => (s.headD JsNoError, 900, s.tail)
  JsGetValueType := fun _ s => (s.headD JsNoError, JsString, s.tail)
  JsNumberToDouble := fun _ s => (s.headD JsNoError, 3, s.tail)
  JsIntToNumber := fun i s => (s.headD JsNoError, 1000 + i.toNat, s.tail)
  JsGetIndexedProperty := fun _ i s => (s.headD JsNoError, i - 1000 + 1, s.tail)
  JsEquals := fun a b s => (s.headD JsNoError, decide (a = b), s.tail)

/-- The characters of the test values: value `1` is "ab", value `2` is
"abc", value `3` is "AB", every other value is empty. -/
def testStrings : JsValueRef → WString
  | 1 => "ab".toList
  | 2 => "abc".toList
  | 3 => "AB".toList
  | _ => []

/-- The engine of the concrete runs. -/
def testEngine : Engine (List JsErrorCode) := scriptedEngine testStrings true

/-- The context of the concrete runs. -/
def testContext : ContextShim where
  GetTrue := 11
  GetFalse := 12
  GetCloneObjectFunction := 13

/-- The isolate of the concrete runs. -/
def testIsolate : IsolateShim where
  GetCurrentContextShim := testContext
  GetCachedPropertyIdRef
    | CachedPropertyIdRef.length => 20
    | CachedPropertyIdRef.writable => 21
    | CachedPropertyIdRef.enumerable => 22
    | CachedPropertyIdRef.configurable => 23
    | CachedPropertyIdRef.value => 24
    | CachedPropertyIdRef.get => 25
    | CachedPropertyIdRef.set => 26

/-- The engine of the concrete runs, with every array empty. -/
def emptyArrayEngine : Engine (List JsErrorCode) :=
  { testEngine with
    JsNumberToDouble := fun _ s => (s.headD JsNoError, 0, s.tail) }

/-- The engine of the concrete runs, with every array of length
`2 ^ 31 + 1` and holding the value `7` at index `2 ^ 31` only: the number
made from the integer `i` is the handle `i + 2 ^ 31`, the property of an
array at the number `2 ^ 31` is `7`, and its property at every other number
is `0`. -/
def sparseArrayEngine : Engine (List JsErrorCode) :=
  { testEngine with
    JsNumberToDouble := fun _ s => (s.headD JsNoError, 2 ^ 31 + 1, s.tail)
    JsIntToNumber := fun i s => (s.headD JsNoError, (i + 2 ^ 31).toNat, s.tail)
    JsGetIndexedProperty := fun _ number s =>
      (s.headD JsNoError, if number = 2 ^ 31 + 2 ^ 31 then 7 else 0, s.tail) }

/-- A world with engine state `s` and no call made yet. -/
def start {σ : Type} (s : σ) : World σ := ⟨s, []⟩

/-! ## Basic facts -/

theorem JsErrorInvalidArgument_ne_JsNoError :
    JsErrorInvalidArgument ≠ JsNoError := by decide

/-! ## `CloneObject` -/

/-- C1 (the code departs from the claim): for every engine, when the clone
function call and `JsGetPrototype` succeed, `CloneObject` with
`clonePrototype = true` calls `JsSetPrototype (target, prototype)` and then
returns `JsNoError`, whatever status code that call returned: the status is
stored in the inner `error`, which is out of scope at the final `return`. -/
theorem CloneObject_loses_JsSetPrototype_status (E : Engine σ)
    (contextShim : ContextShim) (source target : JsValueRef) (w : World σ)
    (hclone : (E.CallFunction contextShim.GetCloneObjectFunction source target
      w.engine).1 = JsNoError)
    (hproto : (E.JsGetPrototype source (E.CallFunction
      contextShim.GetCloneObjectFunction source target w.engine).2.2).1
        = JsNoError) :
    let cloned := E.CallFunction contextShim.GetCloneObjectFunction source
      target w.engine
    let proto := E.JsGetPrototype source cloned.2.2
    let stored := E.JsSetPrototype target proto.2.1 proto.2.2
    let out := CloneObject E contextShim source target true w
    out.1 = JsNoError ∧
    out.2.trace = w.trace ++
      [(Call.CallFunction contextShim.GetCloneObjectFunction source target,
          JsNoError),
       (Call.JsGetPrototype source, JsNoError),
       (Call.JsSetPrototype target proto.2.1, stored.1)] := by
  simp [CloneObject, CallFunction, JsGetPrototype, JsSetPrototype, invoke,
    bind, StateT.bind, pure, StateT.pure, hclone, hproto]

/-- C1, at a concrete input: the clone call and `JsGetPrototype` succeed,
`JsSetPrototype` fails with `JsErrorInvalidArgument`, and `CloneObject`
returns `JsNoError`. -/
theorem CloneObject_loses_JsSetPrototype_status_witness :
    (testEngine.JsSetPrototype 2 200 [JsErrorInvalidArgument]).1
      = JsErrorInvalidArgument ∧
    (CloneObject testEngine testContext 1 2 true
      (start [JsNoError, JsNoError, JsErrorInvalidArgument])).1 = JsNoError ∧
    (CloneObject testEngine testContext 1 2 true
      (start [JsNoError, JsNoError, JsErrorInvalidArgument])).2.trace =
      [(Call.CallFunction 13 1 2, JsNoError),
       (Call.JsGetPrototype 1, JsNoError),
       (Call.JsSetPrototype 2 200, JsErrorInvalidArgument)] :=
  ⟨rfl,
   CloneObject_loses_JsSetPrototype_status testEngine testContext 1 2
     (start [JsNoError, JsNoError, JsErrorInvalidArgument]) rfl rfl⟩

/-! ## `CallProperty` -/

/-- C2: `CallProperty` by name stops at the first failing engine call.  If
`JsGetPropertyIdFromName` fails with `e` it returns `e` and that call is the
only one made; otherwise, if `JsGetProperty` fails with `e` it returns `e`
and `JsCallFunction` is not called; otherwise it returns the status code of
`JsCallFunction` on the fetched property value with the given arguments and
count (and `*result` is what that call stored). -/
theorem CallPropertyByName_short_circuits (E : Engine σ) (ref : JsValueRef)
    (propertyName : WString) (arguments : List JsValueRef)
    (argumentCount : Nat) (result : JsValueRef) (w : World σ) :
    let id := E.JsGetPropertyIdFromName propertyName w.engine
    let prop := E.JsGetProperty ref id.2.1 id.2.2
    let call := E.JsCallFunction prop.2.1 arguments argumentCount prop.2.2
    let evId : Event := (Call.JsGetPropertyIdFromName propertyName, id.1)
    let evProp : Event := (Call.JsGetProperty ref id.2.1, prop.1)
    let evCall : Event :=
      (Call.JsCallFunction prop.2.1 arguments argumentCount, call.1)
    let out := CallPropertyByName E ref propertyName arguments argumentCount
      result w
    (id.1 ≠ JsNoError →
      out.1 = (id.1, result) ∧ out.2.trace = w.trace ++ [evId]) ∧
    (id.1 = JsNoError → prop.1 ≠ JsNoError →
      out.1 = (prop.1, result) ∧ out.2.trace = w.trace ++ [evId, evProp]) ∧
    (id.1 = JsNoError → prop.1 = JsNoError →
      out.1 = (call.1, call.2.1) ∧
      out.2.trace = w.trace ++ [evId, evProp, evCall]) := by
  refine ⟨fun h => ?_, fun h1 h2 => ?_, fun h1 h2 => ?_⟩
  · simp [CallPropertyByName, JsGetPropertyIdFromName, invoke, bind,
      StateT.bind, pure, StateT.pure, h]
  · simp [CallPropertyByName, CallProperty, JsGetPropertyIdFromName,
      JsGetProperty, invoke, bind, StateT.bind, pure, StateT.pure, h1, h2]
  · simp [CallPropertyByName, CallProperty, JsGetPropertyIdFromName,
      JsGetProperty, JsCallFunction, invoke, bind, StateT.bind, pure,
      StateT.pure, h1, h2]

/-- C2, at three concrete inputs, one for each branch: the id lookup fails,
the property fetch fails, and both succeed. -/
theorem CallPropertyByName_short_circuits_witness :
    ((CallPropertyByName testEngine 1 "f".toList [1, 2] 2 0
        (start [JsErrorInvalidArgument])).1 = (JsErrorInvalidArgument, 0) ∧
      (CallPropertyByName testEngine 1 "f".toList [1, 2] 2 0
        (start [JsErrorInvalidArgument])).2.trace =
        [(Call.JsGetPropertyIdFromName "f".toList, JsErrorInvalidArgument)]) ∧
    ((CallPropertyByName testEngine 1 "f".toList [1, 2] 2 0
        (start [JsNoError, 7])).1 = (7, 0) ∧
      (CallPropertyByName testEngine 1 "f".toList [1, 2] 2 0
        (start [JsNoError, 7])).2.trace =
        [(Call.JsGetPropertyIdFromName "f".toList, JsNoError),
         (Call.JsGetProperty 1 300, 7)]) ∧
    ((CallPropertyByName testEngine 1 "f".toList [1, 2] 2 0
        (start [JsNoError, JsNoError, 9])).1 = (9, 600) ∧
      (CallPropertyByName testEngine 1 "f".toList [1, 2] 2 0
        (start [JsNoError, JsNoError, 9])).2.trace =
        [(Call.JsGetPropertyIdFromName "f".toList, JsNoError),
         (Call.JsGetProperty 1 300, JsNoError),
         (Call.JsCallFunction 500 [1, 2] 2, 9)]) :=
  ⟨(CallPropertyByName_short_circuits testEngine 1 "f".toList [1, 2] 2 0
      (start [JsErrorInvalidArgument])).1 (by decide),
   (CallPropertyByName_short_circuits testEngine 1 "f".toList [1, 2] 2 0
      (start [JsNoError, 7])).2.1 rfl (by decide),
   (CallPropertyByName_short_circuits testEngine 1 "f".toList [1, 2] 2 0
      (start [JsNoError, JsNoError, 9])).2.2 rfl rfl⟩

/-! ## `GetExternalData` -/

/-- C3, the claim as stated fails: `JsGetProperty` succeeds,
`JsGetExternalData` returns `JsErrorInvalidArgument` leaving `700` in
`*data`, and `GetExternalData` returns `JsNoError` with `*data` reset to
the null pointer. -/
theorem GetExternalData_translates_invalid_argument :
    (testEngine.JsGetProperty 1 2 [JsNoError, JsErrorInvalidArgument]).1
      = JsNoError ∧
    (testEngine.JsGetExternalData 500 [JsErrorInvalidArgument]).1
      = JsErrorInvalidArgument ∧
    (testEngine.JsGetExternalData 500 [JsErrorInvalidArgument]).2.1 = 700 ∧
    (GetExternalData testEngine 1 2 55
      (start [JsNoError, JsErrorInvalidArgument])).1 = (JsNoError, nullptr) ∧
    (GetExternalData testEngine 1 2 55
      (start [JsNoError, JsErrorInvalidArgument])).1.1
        ≠ JsErrorInvalidArgument := by
  decide

/-- C3, amended: when `JsGetProperty` succeeds and `JsGetExternalData` on the
fetched value returns `e`, `GetExternalData` returns exactly `e` and leaves
in `*data` what the engine stored there, for every `e` other than
`JsErrorInvalidArgument`; for `e = JsErrorInvalidArgument` it returns
`JsNoError` and sets `*data` to the null pointer.  In both cases the two
engine calls are the only ones made. -/
theorem GetExternalData_status (E : Engine σ) (ref : JsValueRef)
    (idRef : JsPropertyIdRef) (data : VoidPtr) (w : World σ)
    (hget : (E.JsGetProperty ref idRef w.engine).1 = JsNoError) :
    let got := E.JsGetProperty ref idRef w.engine
    let ext := E.JsGetExternalData got.2.1 got.2.2
    let out := GetExternalData E ref idRef data w
    (ext.1 ≠ JsErrorInvalidArgument → out.1 = (ext.1, ext.2.1)) ∧
    (ext.1 = JsErrorInvalidArgument → out.1 = (JsNoError, nullptr)) ∧
    out.2.trace = w.trace ++
      [(Call.JsGetProperty ref idRef, JsNoError),
       (Call.JsGetExternalData got.2.1, ext.1)] := by
  refine ⟨fun h => ?_, fun h => ?_, ?_⟩
  · simp [GetExternalData, JsGetProperty, JsGetExternalData, invoke, bind,
      StateT.bind, pure, StateT.pure, hget, h]
  · simp [GetExternalData, JsGetProperty, JsGetExternalData, invoke, bind,
      StateT.bind, pure, StateT.pure, hget, h]
  · by_cases h : (E.JsGetExternalData (E.JsGetProperty ref idRef w.engine).2.1
        (E.JsGetProperty ref idRef w.engine).2.2).1 = JsErrorInvalidArgument
    all_goals simp [GetExternalData, JsGetProperty, JsGetExternalData, invoke,
      bind, StateT.bind, pure, StateT.pure, hget, h]

/-- C3 amended, at two concrete inputs: the engine's code `7` is returned
unchanged with the engine's `*data`, and `JsErrorInvalidArgument` becomes
`JsNoError` with a null `*data`. -/
theorem GetExternalData_status_witness :
    (GetExternalData testEngine 1 2 55 (start [JsNoError, 7])).1 = (7, 700) ∧
    (GetExternalData testEngine 1 2 55
      (start [JsNoError, JsErrorInvalidArgument])).1 = (JsNoError, nullptr) :=
  ⟨(GetExternalData_status testEngine 1 2 55 (start [JsNoError, 7]) rfl).1
      (by decide),
   (GetExternalData_status testEngine 1 2 55
      (start [JsNoError, JsErrorInvalidArgument]) rfl).2.1 rfl⟩

/-! ## `CreatePropertyDescriptor` and `DefineProperty` -/

theorem setProps_ite_append (E : Engine σ) (d : JsValueRef) (c : Prop)
    [Decidable c] (p : JsPropertyIdRef × JsValueRef)
    (rest : List (JsPropertyIdRef × JsValueRef)) :
    setProps E d ((if c then [p] else []) ++ rest) =
      if c then (do
        let error ← JsSetProperty E d p.1 p.2 false
        if error ≠ JsNoError then
          return (error, d)
        setProps E d rest)
      else setProps E d rest := by
  by_cases h : c <;> simp [h, setProps]

/-- The descriptor builder is `JsCreateObject` followed by the requested
sets, each returning at its first failure. -/
theorem CreatePropertyDescriptor_eq_setProps (E : Engine σ)
    (isolateShim : IsolateShim)
    (writable enumerable configurable : PropertyDescriptorOptionValues)
    (value getter setter : JsValueRef) :
    CreatePropertyDescriptor E isolateShim writable enumerable configurable
      value getter setter = (do
    let (status, descriptor) ← JsCreateObject E
    if status ≠ JsNoError then
      return (status, descriptor)
    setProps E descriptor (requestedProperties isolateShim writable
      enumerable configurable value getter setter)) := by
  have hreq : requestedProperties isolateShim writable enumerable configurable
      value getter setter =
      requestedFlag isolateShim CachedPropertyIdRef.writable writable ++
      (requestedFlag isolateShim CachedPropertyIdRef.enumerable enumerable ++
      (requestedFlag isolateShim CachedPropertyIdRef.configurable
        configurable ++
      (requestedRef isolateShim CachedPropertyIdRef.value value ++
      (requestedRef isolateShim CachedPropertyIdRef.get getter ++
      (requestedRef isolateShim CachedPropertyIdRef.set setter ++ []))))) := by
    simp [requestedProperties]
  rw [hreq]
  unfold requestedFlag requestedRef
  simp only [setProps_ite_append]
  unfold CreatePropertyDescriptor
  rfl

theorem setProps_trace_prefix (E : Engine σ) (d : JsValueRef)
    (ps : List (JsPropertyIdRef × JsValueRef)) (w : World σ) :
    ∃ l, (setProps E d ps w).2.trace = w.trace ++ l := by
  induction ps generalizing w with
  | nil => exact ⟨[], by simp [setProps, pure, StateT.pure]⟩
  | cons p ps ih =>
    by_cases h : (E.JsSetProperty d p.1 p.2 false w.engine).1 = JsNoError
    · obtain ⟨l, hl⟩ := ih ⟨(E.JsSetProperty d p.1 p.2 false w.engine).2.2,
        w.trace ++ [(Call.JsSetProperty d p.1 p.2 false,
          (E.JsSetProperty d p.1 p.2 false w.engine).1)]⟩
      refine ⟨(Call.JsSetProperty d p.1 p.2 false, JsNoError) :: l, ?_⟩
      simp [setProps, JsSetProperty, invoke, bind, StateT.bind, pure,
        StateT.pure, h] at hl ⊢
      rw [hl]
    · exact ⟨[(Call.JsSetProperty d p.1 p.2 false,
          (E.JsSetProperty d p.1 p.2 false w.engine).1)], by
        simp [setProps, JsSetProperty, invoke, bind, StateT.bind, pure,
          StateT.pure, h]⟩

theorem setProps_all_succeed (E : Engine σ) (d : JsValueRef)
    (ps : List (JsPropertyIdRef × JsValueRef)) (w : World σ)
    (hok : ∀ ev ∈ World.since (setProps E d ps w).2 w, ev.2 = JsNoError) :
    (setProps E d ps w).1 = (JsNoError, d) ∧
    (setProps E d ps w).2.trace = w.trace ++
      ps.map (fun p => (Call.JsSetProperty d p.1 p.2 false, JsNoError)) := by
  induction ps generalizing w with
  | nil => simp [setProps, pure, StateT.pure]
  | cons p ps ih =>
    by_cases h : (E.JsSetProperty d p.1 p.2 false w.engine).1 = JsNoError
    · have key := ih ⟨(E.JsSetProperty d p.1 p.2 false w.engine).2.2,
        w.trace ++ [(Call.JsSetProperty d p.1 p.2 false,
          (E.JsSetProperty d p.1 p.2 false w.engine).1)]⟩
      obtain ⟨l, hl⟩ := setProps_trace_prefix E d ps
        ⟨(E.JsSetProperty d p.1 p.2 false w.engine).2.2,
        w.trace ++ [(Call.JsSetProperty d p.1 p.2 false,
          (E.JsSetProperty d p.1 p.2 false w.engine).1)]⟩
      simp [setProps, JsSetProperty, invoke, bind, StateT.bind, pure,
        StateT.pure, h, World.since] at hok key hl ⊢
      rw [hl] at hok key
      simp at hok key
      obtain ⟨h1, h2⟩ := key (fun a b hab => hok a b (Or.inr hab))
      refine ⟨h1, ?_⟩
      rw [hl, h2]
    · exfalso
      apply h
      have := hok (Call.JsSetProperty d p.1 p.2 false,
          (E.JsSetProperty d p.1 p.2 false w.engine).1)
      simp [setProps, JsSetProperty, invoke, bind, StateT.bind, pure,
        StateT.pure, h, World.since] at this

/-- C7: when `JsCreateObject` and every `JsSetProperty` call made succeed,
the option-values overload of `CreatePropertyDescriptor` returns `JsNoError`
with the fresh object in `*descriptor`, and the calls it makes are
`JsCreateObject` followed by one non-strict `JsSetProperty` on the fresh
object for each requested property, in the order writable, enumerable,
configurable, value, get, set: a flag is set iff its option is not `None`
(to the context's true value iff the option is `True`, else to its false
value), and value, get and set are set iff the reference is not
`JS_INVALID_REFERENCE` (to that reference).  Nothing else is set. -/
theorem CreatePropertyDescriptor_sets_requested (E : Engine σ)
    (isolateShim : IsolateShim)
    (writable enumerable configurable : PropertyDescriptorOptionValues)
    (value getter setter : JsValueRef) (w : World σ)
    (hok : ∀ ev ∈ World.since (CreatePropertyDescriptor E isolateShim writable
      enumerable configurable value getter setter w).2 w, ev.2 = JsNoError) :
    let fresh := (E.JsCreateObject w.engine).2.1
    let out := CreatePropertyDescriptor E isolateShim writable enumerable
      configurable value getter setter w
    out.1 = (JsNoError, fresh) ∧
    out.2.trace = w.trace ++ (Call.JsCreateObject, JsNoError) ::
      (requestedProperties isolateShim writable enumerable configurable value
        getter setter).map
        (fun p => (Call.JsSetProperty fresh p.1 p.2 false, JsNoError)) := by
  rw [CreatePropertyDescriptor_eq_setProps] at hok ⊢
  by_cases hc : (E.JsCreateObject w.engine).1 = JsNoError
  · obtain ⟨l, hl⟩ := setProps_trace_prefix E (E.JsCreateObject w.engine).2.1
      (requestedProperties isolateShim writable enumerable configurable value
        getter setter)
      ⟨(E.JsCreateObject w.engine).2.2,
        w.trace ++ [(Call.JsCreateObject, JsNoError)]⟩
    have key := setProps_all_succeed E (E.JsCreateObject w.engine).2.1
      (requestedProperties isolateShim writable enumerable configurable value
        getter setter)
      ⟨(E.JsCreateObject w.engine).2.2,
        w.trace ++ [(Call.JsCreateObject, JsNoError)]⟩
    simp [JsCreateObject, invoke, bind, StateT.bind, pure, StateT.pure, hc,
      World.since] at hok key hl ⊢
    rw [hl] at hok key
    simp at hok key
    obtain ⟨h1, h2⟩ := key (fun a b hab => hok a b (Or.inr hab))
    refine ⟨h1, ?_⟩
    rw [hl, h2]
  · exfalso
    apply hc
    have := hok (Call.JsCreateObject, (E.JsCreateObject w.engine).1)
    simp [JsCreateObject, invoke, bind, StateT.bind, pure, StateT.pure, hc,
      World.since] at this

/-- C7, at a concrete input: writable `True`, enumerable `None`,
configurable `False`, value `5`, no getter, setter `6`; every call succeeds
and the properties set are writable, configurable, value and set. -/
theorem CreatePropertyDescriptor_sets_requested_witness :
    (CreatePropertyDescriptor testEngine testIsolate
      PropertyDescriptorOptionValues.True PropertyDescriptorOptionValues.None
      PropertyDescriptorOptionValues.False 5 JS_INVALID_REFERENCE 6
      (start [])).1 = (JsNoError, 800) ∧
    (CreatePropertyDescriptor testEngine testIsolate
      PropertyDescriptorOptionValues.True PropertyDescriptorOptionValues.None
      PropertyDescriptorOptionValues.False 5 JS_INVALID_REFERENCE 6
      (start [])).2.trace =
      [(Call.JsCreateObject, JsNoError),
       (Call.JsSetProperty 800 21 11 false, JsNoError),
       (Call.JsSetProperty 800 23 12 false, JsNoError),
       (Call.JsSetProperty 800 24 5 false, JsNoError),
       (Call.JsSetProperty 800 26 6 false, JsNoError)] :=
  CreatePropertyDescriptor_sets_requested testEngine testIsolate
    PropertyDescriptorOptionValues.True PropertyDescriptorOptionValues.None
    PropertyDescriptorOptionValues.False 5 JS_INVALID_REFERENCE 6 (start [])
    (by decide)

/-- C4, the claim as stated fails: `CreatePropertyDescriptor` succeeds,
`JsDefineProperty` returns `JsNoError` while writing `false` to `result`,
and `DefineProperty` returns `JsErrorInvalidArgument`. -/
theorem DefineProperty_rejects_false_result :
    (CreatePropertyDescriptor (scriptedEngine testStrings false) testIsolate
      PropertyDescriptorOptionValues.True PropertyDescriptorOptionValues.None
      PropertyDescriptorOptionValues.None 5 JS_INVALID_REFERENCE
      JS_INVALID_REFERENCE (start [])).1 = (JsNoError, 800) ∧
    ((scriptedEngine testStrings false).JsDefineProperty 1 2 800 []).1
      = JsNoError ∧
    ((scriptedEngine testStrings false).JsDefineProperty 1 2 800 []).2.1
      = false ∧
    (DefineProperty (scriptedEngine testStrings false) testIsolate 1 2
      PropertyDescriptorOptionValues.True PropertyDescriptorOptionValues.None
      PropertyDescriptorOptionValues.None 5 JS_INVALID_REFERENCE
      JS_INVALID_REFERENCE (start [])).1 = JsErrorInvalidArgument ∧
    (DefineProperty (scriptedEngine testStrings false) testIsolate 1 2
      PropertyDescriptorOptionValues.True PropertyDescriptorOptionValues.None
      PropertyDescriptorOptionValues.None 5 JS_INVALID_REFERENCE
      JS_INVALID_REFERENCE (start [])).2.trace =
      [(Call.JsCreateObject, JsNoError),
       (Call.JsSetProperty 800 21 11 false, JsNoError),
       (Call.JsSetProperty 800 24 5 false, JsNoError),
       (Call.JsDefineProperty 1 2 800, JsNoError)] := by
  decide

/-- C4, amended: for every input for which `CreatePropertyDescriptor`
succeeds, `DefineProperty` (property-id overload) calls
`JsDefineProperty (object, propertyIdRef, descriptor, &result)` once and
returns its status code unmodified, except that it returns
`JsErrorInvalidArgument` when the engine returned `JsNoError` and wrote
`false` to `result`. -/
theorem DefineProperty_status (E : Engine σ) (isolateShim : IsolateShim)
    (object : JsValueRef) (propertyIdRef : JsPropertyIdRef)
    (writable enumerable configurable : PropertyDescriptorOptionValues)
    (value getter setter : JsValueRef) (w : World σ)
    (hcreate : (CreatePropertyDescriptor E isolateShim writable enumerable
      configurable value getter setter w).1.1 = JsNoError) :
    let made := CreatePropertyDescriptor E isolateShim writable enumerable
      configurable value getter setter w
    let defined := E.JsDefineProperty object propertyIdRef made.1.2
      made.2.engine
    let out := DefineProperty E isolateShim object propertyIdRef writable
      enumerable configurable value getter setter w
    out.1 = (if defined.1 = JsNoError ∧ defined.2.1 = false then
        JsErrorInvalidArgument else defined.1) ∧
    out.2.trace = made.2.trace ++
      [(Call.JsDefineProperty object propertyIdRef made.1.2, defined.1)] := by
  generalize hm : CreatePropertyDescriptor E isolateShim writable enumerable
      configurable value getter setter w = made at hcreate
  obtain ⟨⟨status, descriptor⟩, w1⟩ := made
  simp only at hcreate
  subst hcreate
  by_cases h1 : (E.JsDefineProperty object propertyIdRef descriptor
      w1.engine).1 = JsNoError
  · by_cases h2 : (E.JsDefineProperty object propertyIdRef descriptor
        w1.engine).2.1 = false
    all_goals simp [DefineProperty, JsDefineProperty, invoke, bind,
      StateT.bind, pure, StateT.pure, hm, h1, h2]
  · simp [DefineProperty, JsDefineProperty, invoke, bind, StateT.bind, pure,
      StateT.pure, hm, h1]

/-- C4 amended, at three concrete inputs: the engine's failure code `7` is
returned unmodified, `JsNoError` with `result = true` is returned
unmodified, and `JsNoError` with `result = false` becomes
`JsErrorInvalidArgument`. -/
theorem DefineProperty_status_witness :
    (DefineProperty testEngine testIsolate 1 2
      PropertyDescriptorOptionValues.None PropertyDescriptorOptionValues.None
      PropertyDescriptorOptionValues.None 5 JS_INVALID_REFERENCE
      JS_INVALID_REFERENCE (start [JsNoError, JsNoError, 7])).1 = 7 ∧
    (DefineProperty testEngine testIsolate 1 2
      PropertyDescriptorOptionValues.None PropertyDescriptorOptionValues.None
      PropertyDescriptorOptionValues.None 5 JS_INVALID_REFERENCE
      JS_INVALID_REFERENCE (start [])).1 = JsNoError ∧
    (DefineProperty (scriptedEngine testStrings false) testIsolate 1 2
      PropertyDescriptorOptionValues.None PropertyDescriptorOptionValues.None
      PropertyDescriptorOptionValues.None 5 JS_INVALID_REFERENCE
      JS_INVALID_REFERENCE (start [])).1 = JsErrorInvalidArgument :=
  ⟨(DefineProperty_status testEngine testIsolate 1 2
      PropertyDescriptorOptionValues.None PropertyDescriptorOptionValues.None
      PropertyDescriptorOptionValues.None 5 JS_INVALID_REFERENCE
      JS_INVALID_REFERENCE (start [JsNoError, JsNoError, 7]) rfl).1,
   (DefineProperty_status testEngine testIsolate 1 2
      PropertyDescriptorOptionValues.None PropertyDescriptorOptionValues.None
      PropertyDescriptorOptionValues.None 5 JS_INVALID_REFERENCE
      JS_INVALID_REFERENCE (start []) rfl).1,
   (DefineProperty_status (scriptedEngine testStrings false) testIsolate 1 2
      PropertyDescriptorOptionValues.None PropertyDescriptorOptionValues.None
      PropertyDescriptorOptionValues.None 5 JS_INVALID_REFERENCE
      JS_INVALID_REFERENCE (start []) rfl).1⟩

/-! ## `GetPropertyIdFromName` and `GetPropertyIdFromValue` -/

/-- C6: the value overload of `GetPropertyIdFromName` takes a String or a
Symbol.  If `JsStringToPointer (nameRef)` succeeds yielding characters `p`,
the status and id are exactly those of `JsGetPropertyIdFromName (p)`; if it
fails with `JsErrorInvalidArgument`, they are exactly those of
`JsGetPropertyIdFromSymbol (nameRef)`; if it fails with any other code `e`,
the helper returns `e`, leaves `*idRef` alone and makes no other call. -/
theorem GetPropertyIdFromName_string_or_symbol (E : Engine σ)
    (nameRef : JsValueRef) (idRef : JsPropertyIdRef) (w : World σ) :
    let str := E.JsStringToPointer nameRef w.engine
    let byName := E.JsGetPropertyIdFromName str.2.1 str.2.2
    let bySymbol := E.JsGetPropertyIdFromSymbol nameRef str.2.2
    let evStr : Event := (Call.JsStringToPointer nameRef, str.1)
    let out := GetPropertyIdFromName E nameRef idRef w
    (str.1 = JsNoError →
      out.1 = (byName.1, byName.2.1) ∧ out.2.engine = byName.2.2 ∧
      out.2.trace = w.trace ++
        [evStr, (Call.JsGetPropertyIdFromName str.2.1, byName.1)]) ∧
    (str.1 = JsErrorInvalidArgument →
      out.1 = (bySymbol.1, bySymbol.2.1) ∧ out.2.engine = bySymbol.2.2 ∧
      out.2.trace = w.trace ++
        [evStr, (Call.JsGetPropertyIdFromSymbol nameRef, bySymbol.1)]) ∧
    (str.1 ≠ JsNoError → str.1 ≠ JsErrorInvalidArgument →
      out.1 = (str.1, idRef) ∧ out.2.engine = str.2.2 ∧
      out.2.trace = w.trace ++ [evStr]) := by
  refine ⟨fun h => ?_, fun h => ?_, fun h1 h2 => ?_⟩
  · simp [GetPropertyIdFromName, JsStringToPointer, JsGetPropertyIdFromName,
      invoke, bind, StateT.bind, pure, StateT.pure, h]
  · simp [GetPropertyIdFromName, JsStringToPointer, JsGetPropertyIdFromSymbol,
      invoke, bind, StateT.bind, pure, StateT.pure, h,
      JsErrorInvalidArgument_ne_JsNoError]
  · simp [GetPropertyIdFromName, JsStringToPointer, invoke, bind, StateT.bind,
      pure, StateT.pure, h1, h2]

/-- C6, at three concrete inputs: a string name, a name for which
`JsStringToPointer` reports `JsErrorInvalidArgument`, and a name for which it
reports the code `7`. -/
theorem GetPropertyIdFromName_string_or_symbol_witness :
    ((GetPropertyIdFromName testEngine 1 0 (start [])).1 = (JsNoError, 300) ∧
      (GetPropertyIdFromName testEngine 1 0 (start [])).2.trace =
        [(Call.JsStringToPointer 1, JsNoError),
         (Call.JsGetPropertyIdFromName "ab".toList, JsNoError)]) ∧
    ((GetPropertyIdFromName testEngine 1 0
        (start [JsErrorInvalidArgument, 9])).1 = (9, 400) ∧
      (GetPropertyIdFromName testEngine 1 0
        (start [JsErrorInvalidArgument, 9])).2.trace =
        [(Call.JsStringToPointer 1, JsErrorInvalidArgument),
         (Call.JsGetPropertyIdFromSymbol 1, 9)]) ∧
    ((GetPropertyIdFromName testEngine 1 0 (start [7])).1 = (7, 0) ∧
      (GetPropertyIdFromName testEngine 1 0 (start [7])).2.trace =
        [(Call.JsStringToPointer 1, 7)]) :=
  ⟨⟨((GetPropertyIdFromName_string_or_symbol testEngine 1 0
        (start [])).1 rfl).1,
    ((GetPropertyIdFromName_string_or_symbol testEngine 1 0
        (start [])).1 rfl).2.2⟩,
   ⟨((GetPropertyIdFromName_string_or_symbol testEngine 1 0
        (start [JsErrorInvalidArgument, 9])).2.1 rfl).1,
    ((GetPropertyIdFromName_string_or_symbol testEngine 1 0
        (start [JsErrorInvalidArgument, 9])).2.1 rfl).2.2⟩,
   ⟨((GetPropertyIdFromName_string_or_symbol testEngine 1 0
        (start [7])).2.2 (by decide) (by decide)).1,
    ((GetPropertyIdFromName_string_or_symbol testEngine 1 0
        (start [7])).2.2 (by decide) (by decide)).2.2⟩⟩

/-- C5, the claim as stated fails: the first `GetPropertyIdFromName` returns
`JsErrorInvalidArgument`, and `GetPropertyIdFromValue` goes on to call
`JsConvertValueToString` and `GetPropertyIdFromName` a second time, and
returns `JsNoError`. -/
theorem GetPropertyIdFromValue_retries_after_invalid_argument :
    (GetPropertyIdFromName testEngine 1 0
      (start [JsErrorInvalidArgument, JsErrorInvalidArgument])).1.1
        = JsErrorInvalidArgument ∧
    JsErrorInvalidArgument ≠ JsNoError ∧
    (GetPropertyIdFromValue testEngine 1 0
      (start [JsErrorInvalidArgument, JsErrorInvalidArgument])).1
        = (JsNoError, 300) ∧
    (GetPropertyIdFromValue testEngine 1 0
      (start [JsErrorInvalidArgument, JsErrorInvalidArgument])).2.trace =
      [(Call.JsStringToPointer 1, JsErrorInvalidArgument),
       (Call.JsGetPropertyIdFromSymbol 1, JsErrorInvalidArgument),
       (Call.JsConvertValueToString 1, JsNoError),
       (Call.JsStringToPointer 2, JsNoError),
       (Call.JsGetPropertyIdFromName "abc".toList, JsNoError)] := by
  decide

/-- C5, amended: if the first call `GetPropertyIdFromName (valueRef, idRef)`
returns a status code other than `JsErrorInvalidArgument` (in particular any
failure code other than it), `GetPropertyIdFromValue` returns that code and
makes no further engine call.  If it returns `JsErrorInvalidArgument`, the
helper calls `JsConvertValueToString (valueRef)`: when that fails with `e` it
returns `e` and makes no further call, otherwise it returns the result of a
second `GetPropertyIdFromName` on the converted value. -/
theorem GetPropertyIdFromValue_retry (E : Engine σ) (valueRef : JsValueRef)
    (idRef : JsPropertyIdRef) (w : World σ) :
    let first := GetPropertyIdFromName E valueRef idRef w
    let conv := E.JsConvertValueToString valueRef first.2.engine
    let w2 : World σ := ⟨conv.2.2,
      first.2.trace ++ [(Call.JsConvertValueToString valueRef, conv.1)]⟩
    let out := GetPropertyIdFromValue E valueRef idRef w
    (first.1.1 ≠ JsErrorInvalidArgument → out = first) ∧
    (first.1.1 = JsErrorInvalidArgument → conv.1 ≠ JsNoError →
      out = ((conv.1, first.1.2), w2)) ∧
    (first.1.1 = JsErrorInvalidArgument → conv.1 = JsNoError →
      out = GetPropertyIdFromName E conv.2.1 first.1.2 w2) := by
  generalize hf : GetPropertyIdFromName E valueRef idRef w = first
  obtain ⟨⟨status, id1⟩, w1⟩ := first
  refine ⟨fun h => ?_, fun h1 h2 => ?_, fun h1 h2 => ?_⟩
  · simp only at h
    simp [GetPropertyIdFromValue, bind, StateT.bind, pure, StateT.pure, hf, h]
  · simp only at h1 h2
    simp [GetPropertyIdFromValue, JsConvertValueToString, invoke, bind,
      StateT.bind, pure, StateT.pure, hf, h1, h2]
  · simp only at h1 h2
    simp [GetPropertyIdFromValue, JsConvertValueToString, invoke, bind,
      StateT.bind, pure, StateT.pure, hf, h1, h2]
    rfl

/-- C5 amended, at three concrete inputs: a first failure with code `7` is
returned at once; after `JsErrorInvalidArgument` a failing conversion's code
`9` is returned; after `JsErrorInvalidArgument` and a successful conversion
the second lookup's result is returned. -/
theorem GetPropertyIdFromValue_retry_witness :
    ((GetPropertyIdFromValue testEngine 1 0 (start [7])).1 = (7, 0) ∧
      (GetPropertyIdFromValue testEngine 1 0 (start [7])).2.trace =
        [(Call.JsStringToPointer 1, 7)]) ∧
    ((GetPropertyIdFromValue testEngine 1 0
        (start [JsErrorInvalidArgument, JsErrorInvalidArgument, 9])).1
          = (9, 400) ∧
      (GetPropertyIdFromValue testEngine 1 0
        (start [JsErrorInvalidArgument, JsErrorInvalidArgument, 9])).2.trace =
        [(Call.JsStringToPointer 1, JsErrorInvalidArgument),
         (Call.JsGetPropertyIdFromSymbol 1, JsErrorInvalidArgument),
         (Call.JsConvertValueToString 1, 9)]) ∧
    (GetPropertyIdFromValue testEngine 1 0
        (start [JsErrorInvalidArgument, JsErrorInvalidArgument])).1
          = (JsNoError, 300) := by
  refine ⟨?_, ?_, ?_⟩
  · rw [(GetPropertyIdFromValue_retry testEngine 1 0 (start [7])).1
      (by decide)]
    decide
  · rw [(GetPropertyIdFromValue_retry testEngine 1 0
      (start [JsErrorInvalidArgument, JsErrorInvalidArgument, 9])).2.1
      rfl (by decide)]
    decide
  · rw [(GetPropertyIdFromValue_retry testEngine 1 0
      (start [JsErrorInvalidArgument, JsErrorInvalidArgument])).2.2 rfl rfl]
    decide

/-! ## `ParseScript` -/

theorem lineBreaks_append_of_no_terminator (p t : WString)
    (hp : ∀ c ∈ p, isLineTerminator c = false) :
    lineBreaks (p ++ t) = lineBreaks t := by
  induction p with
  | nil => rfl
  | cons c p ih =>
    have hc : isLineTerminator c = false := hp c (List.mem_cons_self c p)
    have hcr : c.toNat ≠ 0x0D := by
      intro h
      simp [isLineTerminator, h] at hc
    have hrest := ih (fun x hx => hp x (List.mem_cons_of_mem c hx))
    simp [lineBreaks, hc, hcr, hrest]

theorem useStrictTag_no_terminator :
    ∀ c ∈ useStrictTag, isLineTerminator c = false := by
  decide

/-- C8: in strict mode `ParseScript` hands `JsParseScript` exactly the text
`'use strict'; ` followed by the script, and otherwise the script unchanged;
in both cases `sourceContext` and `sourceUrl` are forwarded unchanged, the
call is the only one made, and the status and `*result` are the engine's.
The tag holds no line terminator, so each character of the script sits in
the strict text at its own offset plus the tag's length, on the same line
number as in the script. -/
theorem ParseScript_strict_keeps_lines (E : Engine σ) (script : WString)
    (sourceContext : JsSourceContext) (sourceUrl : WString) (w : World σ) :
    let strictText := "'use strict'; ".toList ++ script
    let strict := E.JsParseScript strictText sourceContext sourceUrl w.engine
    let plain := E.JsParseScript script sourceContext sourceUrl w.engine
    let outStrict := ParseScript E script sourceContext sourceUrl true w
    let outPlain := ParseScript E script sourceContext sourceUrl false w
    (outStrict.1 = (strict.1, strict.2.1) ∧ outStrict.2.engine = strict.2.2 ∧
      outStrict.2.trace = w.trace ++
        [(Call.JsParseScript strictText sourceContext sourceUrl, strict.1)]) ∧
    (outPlain.1 = (plain.1, plain.2.1) ∧ outPlain.2.engine = plain.2.2 ∧
      outPlain.2.trace = w.trace ++
        [(Call.JsParseScript script sourceContext sourceUrl, plain.1)]) ∧
    (∀ c ∈ "'use strict'; ".toList, isLineTerminator c = false) ∧
    (∀ i, strictText[("'use strict'; ".toList).length + i]? = script[i]?) ∧
    (∀ i, lineNumber strictText (("'use strict'; ".toList).length + i)
      = lineNumber script i) := by
  refine ⟨?_, ?_, useStrictTag_no_terminator, fun i => ?_, fun i => ?_⟩
  · simp [ParseScript, JsParseScript, invoke, useStrictTag]
  · simp [ParseScript, JsParseScript, invoke]
  · rw [List.getElem?_append_right (Nat.le_add_right _ _)]
    simp
  · unfold lineNumber
    rw [List.take_append]
    exact lineBreaks_append_of_no_terminator _ _ useStrictTag_no_terminator

/-! ## `ToString` -/

/-- C9: `ToString` converts only if needed.  With `alreadyString` true it
makes no `JsConvertValueToString` call, sets `*strRef` to `ref` and returns
the status of `JsStringToPointer (ref)`.  With `alreadyString` false,
`*strRef` is the value `JsConvertValueToString (ref)` produced; if the
conversion fails with `e` the helper returns `e`, makes no
`JsStringToPointer` call and leaves `*str` alone; otherwise it returns the
status of `JsStringToPointer` on the converted value. -/
theorem ToString_converts_only_if_needed (E : Engine σ) (ref : JsValueRef)
    (strRef : JsValueRef) (str : WString) (w : World σ) :
    let ptr := E.JsStringToPointer ref w.engine
    let conv := E.JsConvertValueToString ref w.engine
    let ptr2 := E.JsStringToPointer conv.2.1 conv.2.2
    let evConv : Event := (Call.JsConvertValueToString ref, conv.1)
    let direct := ToString E ref strRef str true w
    let converted := ToString E ref strRef str false w
    (direct.1 = (ptr.1, ref, ptr.2.1) ∧
      direct.2.trace = w.trace ++ [(Call.JsStringToPointer ref, ptr.1)]) ∧
    converted.1.2.1 = conv.2.1 ∧
    (conv.1 ≠ JsNoError →
      converted.1 = (conv.1, conv.2.1, str) ∧
      converted.2.trace = w.trace ++ [evConv]) ∧
    (conv.1 = JsNoError →
      converted.1 = (ptr2.1, conv.2.1, ptr2.2.1) ∧
      converted.2.trace = w.trace ++
        [evConv, (Call.JsStringToPointer conv.2.1, ptr2.1)]) := by
  refine ⟨?_, ?_, fun h => ?_, fun h => ?_⟩
  · simp [ToString, JsStringToPointer, invoke, bind, StateT.bind, pure,
      StateT.pure]
  · by_cases h : (E.JsConvertValueToString ref w.engine).1 = JsNoError
    all_goals simp [ToString, JsStringToPointer, JsConvertValueToString,
      invoke, bind, StateT.bind, pure, StateT.pure, h]
  · simp [ToString, JsConvertValueToString, invoke, bind, StateT.bind, pure,
      StateT.pure, h]
  · simp [ToString, JsStringToPointer, JsConvertValueToString, invoke, bind,
      StateT.bind, pure, StateT.pure, h]

/-- C9, at two concrete inputs with `alreadyString` false: a conversion that
fails with code `7`, and one that succeeds. -/
theorem ToString_converts_only_if_needed_witness :
    ((ToString testEngine 1 0 [] false (start [7])).1 = (7, 2, []) ∧
      (ToString testEngine 1 0 [] false (start [7])).2.trace =
        [(Call.JsConvertValueToString 1, 7)]) ∧
    ((ToString testEngine 1 0 [] false (start [])).1
        = (JsNoError, 2, "abc".toList) ∧
      (ToString testEngine 1 0 [] false (start [])).2.trace =
        [(Call.JsConvertValueToString 1, JsNoError),
         (Call.JsStringToPointer 2, JsNoError)]) :=
  ⟨(ToString_converts_only_if_needed testEngine 1 0 [] (start [7])).2.2.1
      (by decide),
   (ToString_converts_only_if_needed testEngine 1 0 [] (start [])).2.2.2 rfl⟩

/-! ## The comparator of `IsCaseInsensitiveStringValueInArray` -/

/-- C10 (the code departs from the claim): when both values are strings and
every engine call succeeds, the comparator sets `areEqual` by comparing only
the first `min (firstLength, secondLength)` characters with `_wcsnicmp`; the
two lengths are never compared with each other. -/
theorem comperator_compares_common_prefix (E : Engine σ)
    (first second : JsValueRef) (w : World σ)
    (htype1 : (E.JsGetValueType first w.engine).1 = JsNoError)
    (hstring1 : (E.JsGetValueType first w.engine).2.1 = JsString)
    (htype2 : (E.JsGetValueType second
      (E.JsGetValueType first w.engine).2.2).1 = JsNoError)
    (hstring2 : (E.JsGetValueType second
      (E.JsGetValueType first w.engine).2.2).2.1 = JsString)
    (hptr1 : (E.JsStringToPointer first (E.JsGetValueType second
      (E.JsGetValueType first w.engine).2.2).2.2).1 = JsNoError)
    (hptr2 : (E.JsStringToPointer second (E.JsStringToPointer first
      (E.JsGetValueType second (E.JsGetValueType first w.engine).2.2).2.2
        ).2.2).1 = JsNoError) :
    let type1 := E.JsGetValueType first w.engine
    let type2 := E.JsGetValueType second type1.2.2
    let ptr1 := E.JsStringToPointer first type2.2.2
    let ptr2 := E.JsStringToPointer second ptr1.2.2
    (IsCaseInsensitiveStringValueInArray.comperator E first second w).1 =
      (JsNoError, decide (_wcsnicmp ptr1.2.1 ptr2.2.1
        (min ptr1.2.1.length ptr2.2.1.length) = 0)) := by
  simp [IsCaseInsensitiveStringValueInArray.comperator, JsGetValueType,
    JsStringToPointer, invoke, bind, StateT.bind, pure, StateT.pure, htype1,
    hstring1, htype2, hstring2, hptr1, hptr2]

/-- C10, at a concrete input: the strings "ab" and "abc" have different
lengths, every engine call succeeds, and the comparator sets `areEqual` to
true. -/
theorem comperator_compares_common_prefix_witness :
    testStrings 1 = "ab".toList ∧ testStrings 2 = "abc".toList ∧
    (testStrings 1).length ≠ (testStrings 2).length ∧
    (IsCaseInsensitiveStringValueInArray.comperator testEngine 1 2
      (start [])).1 = (JsNoError, true) ∧
    (IsCaseInsensitiveStringValueInArray.comperator testEngine 1 2
      (start [])).2.trace =
      [(Call.JsGetValueType 1, JsNoError), (Call.JsGetValueType 2, JsNoError),
       (Call.JsStringToPointer 1, JsNoError),
       (Call.JsStringToPointer 2, JsNoError)] :=
  ⟨rfl, rfl, by decide,
   comperator_compares_common_prefix testEngine 1 2 (start []) rfl rfl rfl rfl
     rfl rfl,
   by decide⟩

/-! ## `IsValueInArray` -/

/-- One iteration of the loop is one examination: the loop returns its
status when it fails, returns at a match, and goes on to the next index
otherwise. -/
theorem IsValueInArray.loop_succ (E : Engine σ) (arrayRef valueRef : JsValueRef)
    (comperator : Option (Comparator σ)) (remaining index : Nat)
    (w : World σ) :
    IsValueInArray.loop E arrayRef valueRef comperator (remaining + 1) index
      false w =
    if (examine E arrayRef valueRef comperator index w).1.1 ≠ JsNoError then
      examine E arrayRef valueRef comperator index w
    else if (examine E arrayRef valueRef comperator index w).1.2 = true then
      ((JsNoError, true), (examine E arrayRef valueRef comperator index w).2)
    else
      IsValueInArray.loop E arrayRef valueRef comperator remaining (index + 1)
        false (examine E arrayRef valueRef comperator index w).2 := by
  by_cases h1 : (E.JsIntToNumber (unsignedToInt index) w.engine).1 = JsNoError
  · by_cases h2 : (E.JsGetIndexedProperty arrayRef
        (E.JsIntToNumber (unsignedToInt index) w.engine).2.1
        (E.JsIntToNumber (unsignedToInt index) w.engine).2.2).1 = JsNoError
    · cases comperator with
      | none =>
        simp [IsValueInArray.loop, examine, JsIntToNumber,
          JsGetIndexedProperty, JsEquals, invoke, bind, StateT.bind, pure,
          StateT.pure, h1, h2]
        generalize E.JsEquals _ valueRef _ = r
        obtain ⟨status, verdict, s1⟩ := r
        by_cases h3 : status = JsNoError <;> cases verdict <;>
          simp [StateT.bind, StateT.pure, h3]
      | some compare =>
        simp [IsValueInArray.loop, examine, JsIntToNumber,
          JsGetIndexedProperty, invoke, bind, StateT.bind, pure,
          StateT.pure, h1, h2]
        generalize compare valueRef _ false _ = r
        obtain ⟨⟨status, verdict⟩, w1⟩ := r
        by_cases h3 : status = JsNoError <;> cases verdict <;>
          simp [StateT.bind, StateT.pure, h3]
    · simp [IsValueInArray.loop, examine, JsIntToNumber, JsGetIndexedProperty,
        invoke, bind, StateT.bind, pure, StateT.pure, h1, h2]
  · simp [IsValueInArray.loop, examine, JsIntToNumber, invoke, bind,
      StateT.bind, pure, StateT.pure, h1]

theorem worldBefore_succ_first (E : Engine σ) (arrayRef valueRef : JsValueRef)
    (comperator : Option (Comparator σ)) (first : Nat) (w : World σ)
    (k : Nat) :
    worldBefore E arrayRef valueRef comperator first w (k + 1) =
      worldBefore E arrayRef valueRef comperator (first + 1)
        (examine E arrayRef valueRef comperator first w).2 k := by
  induction k with
  | zero => simp [worldBefore]
  | succ k ih =>
    rw [worldBefore, ih]
    conv_rhs => rw [worldBefore]
    rw [show first + (k + 1) = first + 1 + k by omega]

theorem outcome_succ_first (E : Engine σ) (arrayRef valueRef : JsValueRef)
    (comperator : Option (Comparator σ)) (first : Nat) (w : World σ)
    (k : Nat) :
    outcome E arrayRef valueRef comperator first w (k + 1) =
      outcome E arrayRef valueRef comperator (first + 1)
        (examine E arrayRef valueRef comperator first w).2 k := by
  unfold outcome
  rw [worldBefore_succ_first, show first + (k + 1) = first + 1 + k by omega]

/-- The loop, started with the cell false, either stops right after the
first element that compares equal, or examines every element and finds
none. -/
theorem IsValueInArray.loop_scan (E : Engine σ) (arrayRef valueRef : JsValueRef)
    (comperator : Option (Comparator σ)) (remaining : Nat) :
    ∀ (first : Nat) (w : World σ),
    (∀ i < remaining,
      (∀ j < i, (outcome E arrayRef valueRef comperator first w j).2 = false) →
      (outcome E arrayRef valueRef comperator first w i).1 = JsNoError) →
    (IsValueInArray.loop E arrayRef valueRef comperator remaining first false
      w).1.1 = JsNoError ∧
    ((∃ k < remaining,
        (outcome E arrayRef valueRef comperator first w k).2 = true ∧
        (∀ j < k,
          (outcome E arrayRef valueRef comperator first w j).2 = false) ∧
        (IsValueInArray.loop E arrayRef valueRef comperator remaining first
          false w).1.2 = true ∧
        (IsValueInArray.loop E arrayRef valueRef comperator remaining first
          false w).2 =
          worldBefore E arrayRef valueRef comperator first w (k + 1)) ∨
     ((∀ i < remaining,
        (outcome E arrayRef valueRef comperator first w i).2 = false) ∧
      (IsValueInArray.loop E arrayRef valueRef comperator remaining first
        false w).1.2 = false ∧
      (IsValueInArray.loop E arrayRef valueRef comperator remaining first
        false w).2 =
        worldBefore E arrayRef valueRef comperator first w remaining)) := by
  induction remaining with
  | zero =>
    intro first w _
    refine ⟨rfl, Or.inr ⟨fun i hi => absurd hi (Nat.not_lt_zero i), rfl, rfl⟩⟩
  | succ remaining ih =>
    intro first w hok
    have h0 : (examine E arrayRef valueRef comperator first w).1.1
        = JsNoError := by
      have := hok 0 (Nat.succ_pos remaining)
        (fun j hj => absurd hj (Nat.not_lt_zero j))
      simpa [outcome, worldBefore] using this
    rw [IsValueInArray.loop_succ]
    by_cases hv : (examine E arrayRef valueRef comperator first w).1.2 = true
    · simp only [h0, hv, ne_eq, not_true_eq_false, if_false, if_true]
      refine ⟨by trivial, Or.inl ⟨0, Nat.succ_pos remaining, ?_,
        fun j hj => absurd hj (Nat.not_lt_zero j), by trivial, ?_⟩⟩
      · simpa [outcome, worldBefore] using hv
      · simp [worldBefore]
    · have hv0 : (outcome E arrayRef valueRef comperator first w 0).2
          = false := by
        simpa [outcome, worldBefore] using hv
      simp only [h0, hv, ne_eq, not_true_eq_false, if_false]
      have hok1 : ∀ i < remaining,
          (∀ j < i, (outcome E arrayRef valueRef comperator (first + 1)
            (examine E arrayRef valueRef comperator first w).2 j).2 = false) →
          (outcome E arrayRef valueRef comperator (first + 1)
            (examine E arrayRef valueRef comperator first w).2 i).1
              = JsNoError := by
        intro i hi hprev
        rw [← outcome_succ_first]
        apply hok (i + 1) (Nat.succ_lt_succ hi)
        intro j hj
        cases j with
        | zero => exact hv0
        | succ j =>
          rw [outcome_succ_first]
          exact hprev j (Nat.lt_of_succ_lt_succ hj)
      obtain ⟨hst, hcase⟩ := ih (first + 1)
        (examine E arrayRef valueRef comperator first w).2 hok1
      refine ⟨hst, ?_⟩
      rcases hcase with ⟨k, hk, hk1, hk2, hk3, hk4⟩ | ⟨hall, hres, hw⟩
      · refine Or.inl ⟨k + 1, Nat.succ_lt_succ hk, ?_, ?_, hk3, ?_⟩
        · rw [outcome_succ_first]; exact hk1
        · intro j hj
          cases j with
          | zero => exact hv0
          | succ j =>
            rw [outcome_succ_first]
            exact hk2 j (Nat.lt_of_succ_lt_succ hj)
        · rw [worldBefore_succ_first]; exact hk4
      · refine Or.inr ⟨?_, hres, ?_⟩
        · intro i hi
          cases i with
          | zero => exact hv0
          | succ i =>
            rw [outcome_succ_first]
            exact hall i (Nat.lt_of_succ_lt_succ hi)
        · rw [worldBefore_succ_first]; exact hw

/-- Without a comparator, an examination whose calls succeed logs exactly
three calls: the index made a number, the element fetched, and `JsEquals` on
the element and the value. -/
theorem examine_equals_trace (E : Engine σ) (arrayRef valueRef : JsValueRef)
    (index : Nat) (w : World σ)
    (hok : (examine E arrayRef valueRef none index w).1.1 = JsNoError) :
    ∃ number item,
      (examine E arrayRef valueRef none index w).2.trace = w.trace ++
        [(Call.JsIntToNumber (unsignedToInt index), JsNoError),
         (Call.JsGetIndexedProperty arrayRef number, JsNoError),
         (Call.JsEquals item valueRef, JsNoError)] := by
  by_cases h1 : (E.JsIntToNumber (unsignedToInt index) w.engine).1 = JsNoError
  · by_cases h2 : (E.JsGetIndexedProperty arrayRef
        (E.JsIntToNumber (unsignedToInt index) w.engine).2.1
        (E.JsIntToNumber (unsignedToInt index) w.engine).2.2).1 = JsNoError
    · refine ⟨(E.JsIntToNumber (unsignedToInt index) w.engine).2.1,
        (E.JsGetIndexedProperty arrayRef
          (E.JsIntToNumber (unsignedToInt index) w.engine).2.1
          (E.JsIntToNumber (unsignedToInt index) w.engine).2.2).2.1, ?_⟩
      simp [examine, JsIntToNumber, JsGetIndexedProperty, JsEquals, invoke,
        bind, StateT.bind, pure, StateT.pure, h1, h2] at hok ⊢
      exact hok
    · simp [examine, JsIntToNumber, JsGetIndexedProperty, invoke, bind,
        StateT.bind, pure, StateT.pure, h1, h2] at hok
  · simp [examine, JsIntToNumber, invoke, bind, StateT.bind, pure,
      StateT.pure, h1] at hok

/-- What the loop does, in terms of its own examinations (`examine`, which
asks for the index converted to `int`): when the length `n` is obtained and
every examination made succeeds, `IsValueInArray` returns `JsNoError`, stops
right after the first examination whose verdict is true, and otherwise makes
all `n` examinations. -/
theorem IsValueInArray_scan (E : Engine σ) (isolateShim : IsolateShim)
    (arrayRef valueRef : JsValueRef) (comperator : Option (Comparator σ))
    (result : Bool) (w : World σ) (n : Nat) (w0 : World σ)
    (hlength : GetArrayLength E isolateShim arrayRef 0 w
      = ((JsNoError, n), w0))
    (hok : ∀ i < n,
      (∀ j < i, (outcome E arrayRef valueRef comperator 0 w0 j).2 = false) →
      (outcome E arrayRef valueRef comperator 0 w0 i).1 = JsNoError) :
    let out := IsValueInArray E isolateShim arrayRef valueRef comperator
      result w
    let verdict := fun i => (outcome E arrayRef valueRef comperator 0 w0 i).2
    let before := worldBefore E arrayRef valueRef comperator 0 w0
    out.1.1 = JsNoError ∧
    (out.1.2 = true ↔ ∃ i < n, verdict i = true) ∧
    (∀ k < n, verdict k = true → (∀ j < k, verdict j = false) →
      out.2 = before (k + 1)) ∧
    ((∀ i < n, verdict i = false) → out.2 = before n) ∧
    (n = 0 → out.1 = (JsNoError, false) ∧ out.2 = w0) ∧
    (comperator = none → ∀ k,
      (outcome E arrayRef valueRef comperator 0 w0 k).1 = JsNoError →
      ∃ number item, (before (k + 1)).trace = (before k).trace ++
        [(Call.JsIntToNumber (unsignedToInt k), JsNoError),
         (Call.JsGetIndexedProperty arrayRef number, JsNoError),
         (Call.JsEquals item valueRef, JsNoError)]) := by
  have hrun : IsValueInArray E isolateShim arrayRef valueRef comperator
      result w =
      IsValueInArray.loop E arrayRef valueRef comperator n 0 false w0 := by
    simp [IsValueInArray, bind, StateT.bind, pure, StateT.pure, hlength]
  obtain ⟨hst, hcase⟩ := IsValueInArray.loop_scan E arrayRef valueRef
    comperator n 0 w0 hok
  simp only [hrun]
  refine ⟨hst, ?_, ?_, ?_, ?_, ?_⟩
  · rcases hcase with ⟨k, hk, hk1, _, hk3, _⟩ | ⟨hall, hres, _⟩
    · exact ⟨fun _ => ⟨k, hk, hk1⟩, fun _ => hk3⟩
    · constructor
      · intro h
        rw [hres] at h
        exact absurd h (by decide)
      · rintro ⟨i, hi, hi1⟩
        rw [hall i hi] at hi1
        exact absurd hi1 (by decide)
  · intro k hk hk1 hk2
    rcases hcase with ⟨k', hk', hk1', hk2', _, hw⟩ | ⟨hall, _, _⟩
    · have hkk : k' = k := by
        rcases Nat.lt_trichotomy k' k with h | h | h
        · rw [hk2 k' h] at hk1'
          exact absurd hk1' (by decide)
        · exact h
        · rw [hk2' k h] at hk1
          exact absurd hk1 (by decide)
      rw [hw, hkk]
    · rw [hall k hk] at hk1
      exact absurd hk1 (by decide)
  · intro hnone
    rcases hcase with ⟨k, hk, hk1, _, _, _⟩ | ⟨_, _, hw⟩
    · rw [hnone k hk] at hk1
      exact absurd hk1 (by decide)
    · exact hw
  · intro hn
    subst hn
    exact ⟨rfl, rfl⟩
  · intro hc k hk
    subst hc
    have h := examine_equals_trace E arrayRef valueRef (0 + k)
      (worldBefore E arrayRef valueRef none 0 w0 k) hk
    rw [Nat.zero_add] at h
    rw [worldBefore, Nat.zero_add]
    exact h

theorem unsignedToInt_of_lt (i : Nat) (h : i < 2 ^ 31) :
    unsignedToInt i = Int.ofNat i := by
  have h1 : i % 2 ^ 32 = i := Nat.mod_eq_of_lt (by omega)
  unfold unsignedToInt
  rw [h1, if_pos h]
  rfl

theorem unsignedToInt_lt (i : Nat) : unsignedToInt i < 2 ^ 31 := by
  unfold unsignedToInt
  split <;> omega

theorem examine_eq_examineElement (E : Engine σ)
    (arrayRef valueRef : JsValueRef) (comperator : Option (Comparator σ))
    (i : Nat) (h : i < 2 ^ 31) :
    examine E arrayRef valueRef comperator i =
      examineElement E arrayRef valueRef comperator i := by
  unfold examine examineElement
  rw [unsignedToInt_of_lt i h]

theorem worldBefore_eq_worldAfterElements (E : Engine σ)
    (arrayRef valueRef : JsValueRef) (comperator : Option (Comparator σ))
    (w : World σ) (k : Nat) (h : k ≤ 2 ^ 31) :
    worldBefore E arrayRef valueRef comperator 0 w k =
      worldAfterElements E arrayRef valueRef comperator w k := by
  induction k with
  | zero => rfl
  | succ k ih =>
    rw [worldBefore, worldAfterElements, ih (by omega), Nat.zero_add,
      examine_eq_examineElement E arrayRef valueRef comperator k (by omega)]

theorem outcome_eq_elementOutcome (E : Engine σ)
    (arrayRef valueRef : JsValueRef) (comperator : Option (Comparator σ))
    (w : World σ) (k : Nat) (h : k < 2 ^ 31) :
    outcome E arrayRef valueRef comperator 0 w k =
      elementOutcome E arrayRef valueRef comperator w k := by
  rw [outcome, elementOutcome,
    worldBefore_eq_worldAfterElements E arrayRef valueRef comperator w k
      (by omega), Nat.zero_add,
    examine_eq_examineElement E arrayRef valueRef comperator k h]

/-- For arrays of at most `2 ^ 31` elements `IsValueInArray` is a
short-circuiting linear search over the elements themselves.  Let the length
`n ≤ 2 ^ 31` be obtained successfully, and let every examination made succeed
(the element at an index is examined when no element at a smaller index
compared equal).  Then the helper returns `JsNoError`, and `*result` is true
iff some index below `n` holds an element that compares equal to the value
(by the comparator, or by `JsEquals` when there is none).  The elements are
examined in increasing index order starting at `0`: at a first match `k` the
helper stops in the world reached by examining the elements `0` to `k`, so no
later element is fetched or compared; with no match it stops after examining
all `n`; for `n = 0` the result is false and no element is accessed.  Without
a comparator the examination of the element at index `k` is the three calls
`JsIntToNumber (k)`, `JsGetIndexedProperty` and `JsEquals`. -/
theorem IsValueInArray_linear_search_below_int_max (E : Engine σ)
    (isolateShim : IsolateShim) (arrayRef valueRef : JsValueRef)
    (comperator : Option (Comparator σ)) (result : Bool) (w : World σ)
    (n : Nat) (w0 : World σ)
    (hlength : GetArrayLength E isolateShim arrayRef 0 w
      = ((JsNoError, n), w0))
    (hbound : n ≤ 2 ^ 31)
    (hok : ∀ i < n,
      (∀ j < i,
        (elementOutcome E arrayRef valueRef comperator w0 j).2 = false) →
      (elementOutcome E arrayRef valueRef comperator w0 i).1 = JsNoError) :
    let out := IsValueInArray E isolateShim arrayRef valueRef comperator
      result w
    let verdict := fun i =>
      (elementOutcome E arrayRef valueRef comperator w0 i).2
    let after := worldAfterElements E arrayRef valueRef comperator w0
    out.1.1 = JsNoError ∧
    (out.1.2 = true ↔ ∃ i < n, verdict i = true) ∧
    (∀ k < n, verdict k = true → (∀ j < k, verdict j = false) →
      out.2 = after (k + 1)) ∧
    ((∀ i < n, verdict i = false) → out.2 = after n) ∧
    (n = 0 → out.1 = (JsNoError, false) ∧ out.2 = w0) ∧
    (comperator = none → ∀ k < n,
      (elementOutcome E arrayRef valueRef comperator w0 k).1 = JsNoError →
      ∃ number item, (after (k + 1)).trace = (after k).trace ++
        [(Call.JsIntToNumber (Int.ofNat k), JsNoError),
         (Call.JsGetIndexedProperty arrayRef number, JsNoError),
         (Call.JsEquals item valueRef, JsNoError)]) := by
  have hout : ∀ k < n, outcome E arrayRef valueRef comperator 0 w0 k =
      elementOutcome E arrayRef valueRef comperator w0 k :=
    fun k hk => outcome_eq_elementOutcome E arrayRef valueRef comperator w0 k
      (by omega)
  have hworld : ∀ k ≤ n, worldBefore E arrayRef valueRef comperator 0 w0 k =
      worldAfterElements E arrayRef valueRef comperator w0 k :=
    fun k hk => worldBefore_eq_worldAfterElements E arrayRef valueRef
      comperator w0 k (by omega)
  have hok2 : ∀ i < n,
      (∀ j < i, (outcome E arrayRef valueRef comperator 0 w0 j).2 = false) →
      (outcome E arrayRef valueRef comperator 0 w0 i).1 = JsNoError := by
    intro i hi hprev
    rw [hout i hi]
    apply hok i hi
    intro j hj
    rw [← hout j (by omega)]
    exact hprev j hj
  have hscan := IsValueInArray_scan E isolateShim arrayRef valueRef
    comperator result w n w0 hlength hok2
  dsimp only at hscan ⊢
  obtain ⟨h1, h2, h3, h4, h5, h6⟩ := hscan
  refine ⟨h1, ?_, ?_, ?_, h5, ?_⟩
  · rw [h2]
    constructor
    · rintro ⟨i, hi, hv⟩
      exact ⟨i, hi, by rw [← hout i hi]; exact hv⟩
    · rintro ⟨i, hi, hv⟩
      exact ⟨i, hi, by rw [hout i hi]; exact hv⟩
  · intro k hk hv hprev
    rw [← hworld (k + 1) (by omega)]
    apply h3 k hk
    · rw [hout k hk]; exact hv
    · intro j hj
      rw [hout j (by omega)]
      exact hprev j hj
  · intro hnone
    rw [← hworld n (Nat.le_refl n)]
    apply h4
    intro i hi
    rw [hout i hi]
    exact hnone i hi
  · intro hc k hk hst
    rw [← hout k hk] at hst
    obtain ⟨number, item, htrace⟩ := h6 hc k hst
    rw [hworld (k + 1) (by omega), hworld k (by omega),
      unsignedToInt_of_lt k (by omega)] at htrace
    exact ⟨number, item, htrace⟩

/-- The linear search at two concrete inputs.  In an array with the elements
`1`, `2`, `3` the value `2` is found at index `1`, and the element at index
`2` is neither fetched nor compared; in an empty array nothing is examined
and the result is false. -/
theorem IsValueInArray_linear_search_below_int_max_witness :
    ((IsValueInArray testEngine testIsolate 50 2 none true (start [])).1
        = (JsNoError, true) ∧
      (IsValueInArray testEngine testIsolate 50 2 none true
        (start [])).2.trace =
        [(Call.JsGetProperty 50 20, JsNoError),
         (Call.JsNumberToDouble 500, JsNoError),
         (Call.JsIntToNumber 0, JsNoError),
         (Call.JsGetIndexedProperty 50 1000, JsNoError),
         (Call.JsEquals 1 2, JsNoError),
         (Call.JsIntToNumber 1, JsNoError),
         (Call.JsGetIndexedProperty 50 1001, JsNoError),
         (Call.JsEquals 2 2, JsNoError)]) ∧
    ((IsValueInArray emptyArrayEngine testIsolate 50 2 none true
        (start [])).1 = (JsNoError, false) ∧
      (IsValueInArray emptyArrayEngine testIsolate 50 2 none true
        (start [])).2.trace =
        [(Call.JsGetProperty 50 20, JsNoError),
         (Call.JsNumberToDouble 500, JsNoError)]) := by
  have found := IsValueInArray_linear_search_below_int_max testEngine
    testIsolate 50 2 none true (start []) 3
    ⟨[], [(Call.JsGetProperty 50 20, JsNoError),
      (Call.JsNumberToDouble 500, JsNoError)]⟩ rfl (by decide) (by decide)
  have empty := IsValueInArray_linear_search_below_int_max emptyArrayEngine
    testIsolate 50 2 none true (start []) 0
    ⟨[], [(Call.JsGetProperty 50 20, JsNoError),
      (Call.JsNumberToDouble 500, JsNoError)]⟩ rfl (by decide) (by decide)
  refine ⟨⟨Prod.ext found.1 (found.2.1.mpr ⟨1, by decide, by decide⟩), ?_⟩,
    ⟨(empty.2.2.2.2.1 rfl).1, ?_⟩⟩
  · rw [found.2.2.1 1 (by decide) (by decide) (by decide)]
    decide
  · rw [(empty.2.2.2.2.1 rfl).2]

theorem sparseArrayEngine_examine (i : Nat) (w : World (List JsErrorCode))
    (hw : w.engine = []) :
    (examine sparseArrayEngine 50 7 none i w).1 = (JsNoError, false) ∧
    (examine sparseArrayEngine 50 7 none i w).2.engine = [] := by
  have hlt := unsignedToInt_lt i
  simp [examine, JsIntToNumber, JsGetIndexedProperty, JsEquals, invoke, bind,
    StateT.bind, pure, StateT.pure, sparseArrayEngine, testEngine,
    scriptedEngine, hw, JsNoError]
  change ¬ ((unsignedToInt i + 2147483648).toNat : Nat) = (4294967296 : Nat)
  omega

theorem sparseArrayEngine_examineElement (i : Nat)
    (w : World (List JsErrorCode)) (hw : w.engine = []) :
    (examineElement sparseArrayEngine 50 7 none i w).1
      = (JsNoError, decide (i = 2 ^ 31)) ∧
    (examineElement sparseArrayEngine 50 7 none i w).2.engine = [] := by
  by_cases hi : i = 2 ^ 31
  · have he : (Int.ofNat i + 2 ^ 31).toNat = 2 ^ 31 + 2 ^ 31 := by
      subst hi; rfl
    simp [examineElement, JsIntToNumber, JsGetIndexedProperty, JsEquals,
      invoke, bind, StateT.bind, pure, StateT.pure, sparseArrayEngine,
      testEngine, scriptedEngine, hw, JsNoError, he, hi]
  · simp [examineElement, JsIntToNumber, JsGetIndexedProperty, JsEquals,
      invoke, bind, StateT.bind, pure, StateT.pure, sparseArrayEngine,
      testEngine, scriptedEngine, hw, JsNoError]
    change (((i : Int) + 2147483648).toNat : Nat) = (4294967296 : Nat) ↔
      i = 2147483648
    omega

theorem sparseArrayEngine_worldBefore (w : World (List JsErrorCode))
    (hw : w.engine = []) (k : Nat) :
    (worldBefore sparseArrayEngine 50 7 none 0 w k).engine = [] := by
  induction k with
  | zero => exact hw
  | succ k ih =>
    rw [worldBefore]
    exact (sparseArrayEngine_examine (0 + k) _ ih).2

theorem sparseArrayEngine_worldAfterElements (w : World (List JsErrorCode))
    (hw : w.engine = []) (k : Nat) :
    (worldAfterElements sparseArrayEngine 50 7 none w k).engine = [] := by
  induction k with
  | zero => exact hw
  | succ k ih =>
    rw [worldAfterElements]
    exact (sparseArrayEngine_examineElement k _ ih).2

/-- C11 (the code departs from the claim above `2 ^ 31` elements): the loop
passes its `unsigned int` index to the `int` parameter of `JsIntToNumber`, so
from index `2 ^ 31` on it asks for a negative number and not for the element
at the index.  Here the array has length `2 ^ 31 + 1`, obtained successfully,
and holds the value `7` at index `2 ^ 31` only; every call succeeds, both in
the run and when the elements themselves are examined; the element at index
`2 ^ 31` compares equal to the value; and `IsValueInArray` returns `JsNoError`
with `*result` false.  At that index the loop asks for the number
`-2147483648`. -/
theorem IsValueInArray_misses_index_above_int_max :
    GetArrayLength sparseArrayEngine testIsolate 50 0 (start []) =
      ((JsNoError, 2 ^ 31 + 1),
        ⟨[], [(Call.JsGetProperty 50 20, JsNoError),
          (Call.JsNumberToDouble 500, JsNoError)]⟩) ∧
    (∀ i < 2 ^ 31 + 1,
      (outcome sparseArrayEngine 50 7 none 0
        ⟨[], [(Call.JsGetProperty 50 20, JsNoError),
          (Call.JsNumberToDouble 500, JsNoError)]⟩ i).1 = JsNoError) ∧
    (∀ i < 2 ^ 31 + 1,
      (elementOutcome sparseArrayEngine 50 7 none
        ⟨[], [(Call.JsGetProperty 50 20, JsNoError),
          (Call.JsNumberToDouble 500, JsNoError)]⟩ i).1 = JsNoError) ∧
    (∃ i < 2 ^ 31 + 1,
      (elementOutcome sparseArrayEngine 50 7 none
        ⟨[], [(Call.JsGetProperty 50 20, JsNoError),
          (Call.JsNumberToDouble 500, JsNoError)]⟩ i).2 = true) ∧
    unsignedToInt (2 ^ 31) = -2147483648 ∧
    (IsValueInArray sparseArrayEngine testIsolate 50 7 none false
      (start [])).1 = (JsNoError, false) := by
  have hlength : GetArrayLength sparseArrayEngine testIsolate 50 0 (start []) =
      ((JsNoError, 2 ^ 31 + 1),
        ⟨[], [(Call.JsGetProperty 50 20, JsNoError),
          (Call.JsNumberToDouble 500, JsNoError)]⟩) := by
    rfl
  have hcode : ∀ i,
      outcome sparseArrayEngine 50 7 none 0
        ⟨[], [(Call.JsGetProperty 50 20, JsNoError),
          (Call.JsNumberToDouble 500, JsNoError)]⟩ i = (JsNoError, false) :=
    fun i => (sparseArrayEngine_examine (0 + i) _
      (sparseArrayEngine_worldBefore _ rfl i)).1
  have helement : ∀ i,
      elementOutcome sparseArrayEngine 50 7 none
        ⟨[], [(Call.JsGetProperty 50 20, JsNoError),
          (Call.JsNumberToDouble 500, JsNoError)]⟩ i
        = (JsNoError, decide (i = 2 ^ 31)) :=
    fun i => (sparseArrayEngine_examineElement i _
      (sparseArrayEngine_worldAfterElements _ rfl i)).1
  have hscan := IsValueInArray_scan sparseArrayEngine testIsolate 50 7 none
    false (start []) (2 ^ 31 + 1) _ hlength
    (fun i _ _ => by rw [hcode i])
  dsimp only at hscan
  refine ⟨hlength, fun i _ => by rw [hcode i], fun i _ => by rw [helement i],
    ⟨2 ^ 31, by omega, by rw [helement]; simp⟩, by decide, ?_⟩
  apply Prod.ext hscan.1
  have hfalse : ¬ (IsValueInArray sparseArrayEngine testIsolate 50 7 none false
      (start [])).1.2 = true := by
    intro h
    obtain ⟨i, _, hi⟩ := hscan.2.1.mp h
    rw [hcode i] at hi
    exact absurd hi (by decide)
  simpa using hfalse

/-- The whole of `IsCaseInsensitiveStringValueInArray` at a concrete input:
the array holds "ab", "abc" and "AB", the searched value is the empty
string, and the helper reports true at the first element, whose common
prefix with the value is empty. -/
theorem IsCaseInsensitiveStringValueInArray_empty_value :
    testStrings 4 = [] ∧
    (IsCaseInsensitiveStringValueInArray testEngine testIsolate 50 4 false
      (start [])).1 = (JsNoError, true) ∧
    (IsCaseInsensitiveStringValueInArray testEngine testIsolate 50 4 false
      (start [])).2.trace =
      [(Call.JsGetProperty 50 20, JsNoError),
       (Call.JsNumberToDouble 500, JsNoError),
       (Call.JsIntToNumber 0, JsNoError),
       (Call.JsGetIndexedProperty 50 1000, JsNoError),
       (Call.JsGetValueType 4, JsNoError),
       (Call.JsGetValueType 1, JsNoError),
       (Call.JsStringToPointer 4, JsNoError),
       (Call.JsStringToPointer 1, JsNoError)] := by
  decide

/-! ## The `v8::PropertyAttribute` overload of `CreatePropertyDescriptor` -/

theorem and_two_pow_eq_zero_iff (a i : Nat) :
    a &&& 2 ^ i = 0 ↔ a.testBit i = false := by
  constructor
  · intro h
    have := Nat.testBit_and a (2 ^ i) i
    rw [h, Nat.zero_testBit, Nat.testBit_two_pow_self, Bool.and_true] at this
    exact this.symm
  · intro h
    apply Nat.eq_of_testBit_eq
    intro j
    rw [Nat.testBit_and, Nat.zero_testBit, Nat.testBit_two_pow]
    by_cases hij : i = j
    · subst hij; simp [h]
    · simp [hij]

/-- The option a cleared or set attribute bit stands for. -/
theorem GetPropertyDescriptorOptionValue_mask (attributes i : Nat) :
    GetPropertyDescriptorOptionValue ((attributes &&& 2 ^ i) == 0) =
      if attributes.testBit i = false then PropertyDescriptorOptionValues.True
      else PropertyDescriptorOptionValues.False := by
  by_cases h : attributes.testBit i = false
  · have := (and_two_pow_eq_zero_iff attributes i).mpr h
    simp [GetPropertyDescriptorOptionValue, h, this]
  · have : ¬ (attributes &&& 2 ^ i = 0) :=
      fun h0 => h ((and_two_pow_eq_zero_iff attributes i).mp h0)
    simp [GetPropertyDescriptorOptionValue, h, this]

/-- Every call `setProps` logs is a non-strict `JsSetProperty` of one of the
listed properties on the descriptor. -/
theorem setProps_events (E : Engine σ) (d : JsValueRef)
    (ps : List (JsPropertyIdRef × JsValueRef)) (w : World σ) :
    ∃ l, (setProps E d ps w).2.trace = w.trace ++ l ∧
      ∀ ev ∈ l, ∃ p ∈ ps, ev.1 = Call.JsSetProperty d p.1 p.2 false := by
  induction ps generalizing w with
  | nil => exact ⟨[], by simp [setProps, pure, StateT.pure]⟩
  | cons p ps ih =>
    by_cases h : (E.JsSetProperty d p.1 p.2 false w.engine).1 = JsNoError
    · obtain ⟨l, hl, hev⟩ := ih ⟨(E.JsSetProperty d p.1 p.2 false w.engine).2.2,
        w.trace ++ [(Call.JsSetProperty d p.1 p.2 false,
          (E.JsSetProperty d p.1 p.2 false w.engine).1)]⟩
      refine ⟨(Call.JsSetProperty d p.1 p.2 false, JsNoError) :: l, ?_, ?_⟩
      · simp [setProps, JsSetProperty, invoke, bind, StateT.bind, pure,
          StateT.pure, h] at hl ⊢
        rw [hl]
      · intro ev hmem
        rcases List.mem_cons.mp hmem with heq | hin
        · exact ⟨p, List.mem_cons_self p ps, by rw [heq]⟩
        · obtain ⟨q, hq, hqe⟩ := hev ev hin
          exact ⟨q, List.mem_cons_of_mem p hq, hqe⟩
    · refine ⟨[(Call.JsSetProperty d p.1 p.2 false,
          (E.JsSetProperty d p.1 p.2 false w.engine).1)], ?_, ?_⟩
      · simp [setProps, JsSetProperty, invoke, bind, StateT.bind, pure,
          StateT.pure, h]
      · intro ev hmem
        rw [List.mem_singleton] at hmem
        exact ⟨p, List.mem_cons_self p ps, by rw [hmem]⟩

/-- Every call `CreatePropertyDescriptor` makes is `JsCreateObject` or a
non-strict `JsSetProperty` of a requested property on the fresh object. -/
theorem CreatePropertyDescriptor_events (E : Engine σ)
    (isolateShim : IsolateShim)
    (writable enumerable configurable : PropertyDescriptorOptionValues)
    (value getter setter : JsValueRef) (w : World σ) :
    ∀ ev ∈ World.since (CreatePropertyDescriptor E isolateShim writable
      enumerable configurable value getter setter w).2 w,
      ev.1 = Call.JsCreateObject ∨
      ∃ p ∈ requestedProperties isolateShim writable enumerable configurable
        value getter setter,
        ev.1 = Call.JsSetProperty (E.JsCreateObject w.engine).2.1 p.1 p.2
          false := by
  rw [CreatePropertyDescriptor_eq_setProps]
  by_cases hc : (E.JsCreateObject w.engine).1 = JsNoError
  · obtain ⟨l, hl, hev⟩ := setProps_events E (E.JsCreateObject w.engine).2.1
      (requestedProperties isolateShim writable enumerable configurable value
        getter setter)
      ⟨(E.JsCreateObject w.engine).2.2,
        w.trace ++ [(Call.JsCreateObject, JsNoError)]⟩
    simp [JsCreateObject, invoke, bind, StateT.bind, pure, StateT.pure, hc,
      World.since] at hl ⊢
    rw [hl]
    simp
    intro a b hab
    rcases hab with ⟨ha, _⟩ | hin
    · exact Or.inl ha
    · obtain ⟨p, hp, hpe⟩ := hev (a, b) hin
      exact Or.inr ⟨p.1, p.2, hp, hpe⟩
  · simp [JsCreateObject, invoke, bind, StateT.bind, pure, StateT.pure, hc,
      World.since]

/-- C12: the `v8::PropertyAttribute` overload of `CreatePropertyDescriptor`
maps attribute bits to descriptor flags and ignores the accessors.  For every
attribute bitmask, value, getter and setter it runs exactly as the
option-values overload with writable `True` iff the `ReadOnly` bit is clear
(else `False`), enumerable `True` iff the `DontEnum` bit is clear (else
`False`), configurable `True` iff the `DontDelete` bit is clear (else
`False`), the same value, and getter and setter `JS_INVALID_REFERENCE`.  None
of the three flags is `None`; the properties asked for are the three flags
and, for a valid reference, the value; and every call made is
`JsCreateObject` or a `JsSetProperty` of one of those, so `get` and `set` are
never set, whatever getter and setter were passed. -/
theorem CreatePropertyDescriptorFromAttributes_maps_bits (E : Engine σ)
    (isolateShim : IsolateShim) (attributes : Nat)
    (value getter setter : JsValueRef) (w : World σ) :
    let flag := fun (bit : Nat) =>
      if attributes.testBit bit = false then
        PropertyDescriptorOptionValues.True
      else PropertyDescriptorOptionValues.False
    let boolean := fun (bit : Nat) =>
      if attributes.testBit bit = false then
        isolateShim.GetCurrentContextShim.GetTrue
      else isolateShim.GetCurrentContextShim.GetFalse
    let asked :=
      [(isolateShim.GetCachedPropertyIdRef CachedPropertyIdRef.writable,
          boolean 0),
       (isolateShim.GetCachedPropertyIdRef CachedPropertyIdRef.enumerable,
          boolean 1),
       (isolateShim.GetCachedPropertyIdRef CachedPropertyIdRef.configurable,
          boolean 2)] ++
      requestedRef isolateShim CachedPropertyIdRef.value value
    let out := CreatePropertyDescriptorFromAttributes E isolateShim attributes
      value getter setter w
    (v8.ReadOnly = 2 ^ 0 ∧ v8.DontEnum = 2 ^ 1 ∧ v8.DontDelete = 2 ^ 2) ∧
    out = CreatePropertyDescriptor E isolateShim (flag 0) (flag 1) (flag 2)
      value JS_INVALID_REFERENCE JS_INVALID_REFERENCE w ∧
    (flag 0 ≠ PropertyDescriptorOptionValues.None ∧
      flag 1 ≠ PropertyDescriptorOptionValues.None ∧
      flag 2 ≠ PropertyDescriptorOptionValues.None) ∧
    requestedProperties isolateShim (flag 0) (flag 1) (flag 2) value
      JS_INVALID_REFERENCE JS_INVALID_REFERENCE = asked ∧
    (∀ ev ∈ World.since out.2 w,
      ev.1 = Call.JsCreateObject ∨
      ∃ p ∈ asked,
        ev.1 = Call.JsSetProperty (E.JsCreateObject w.engine).2.1 p.1 p.2
          false) := by
  have hrun : CreatePropertyDescriptorFromAttributes E isolateShim attributes
      value getter setter w =
      CreatePropertyDescriptor E isolateShim
        (if attributes.testBit 0 = false then
          PropertyDescriptorOptionValues.True
         else PropertyDescriptorOptionValues.False)
        (if attributes.testBit 1 = false then
          PropertyDescriptorOptionValues.True
         else PropertyDescriptorOptionValues.False)
        (if attributes.testBit 2 = false then
          PropertyDescriptorOptionValues.True
         else PropertyDescriptorOptionValues.False)
        value JS_INVALID_REFERENCE JS_INVALID_REFERENCE w := by
    unfold CreatePropertyDescriptorFromAttributes
    rw [show v8.ReadOnly = 2 ^ 0 from rfl, show v8.DontEnum = 2 ^ 1 from rfl,
      show v8.DontDelete = 2 ^ 2 from rfl,
      GetPropertyDescriptorOptionValue_mask,
      GetPropertyDescriptorOptionValue_mask,
      GetPropertyDescriptorOptionValue_mask]
  have hasked : requestedProperties isolateShim
      (if attributes.testBit 0 = false then
        PropertyDescriptorOptionValues.True
       else PropertyDescriptorOptionValues.False)
      (if attributes.testBit 1 = false then
        PropertyDescriptorOptionValues.True
       else PropertyDescriptorOptionValues.False)
      (if attributes.testBit 2 = false then
        PropertyDescriptorOptionValues.True
       else PropertyDescriptorOptionValues.False)
      value JS_INVALID_REFERENCE JS_INVALID_REFERENCE =
      [(isolateShim.GetCachedPropertyIdRef CachedPropertyIdRef.writable,
          if attributes.testBit 0 = false then
            isolateShim.GetCurrentContextShim.GetTrue
          else isolateShim.GetCurrentContextShim.GetFalse),
       (isolateShim.GetCachedPropertyIdRef CachedPropertyIdRef.enumerable,
          if attributes.testBit 1 = false then
            isolateShim.GetCurrentContextShim.GetTrue
          else isolateShim.GetCurrentContextShim.GetFalse),
       (isolateShim.GetCachedPropertyIdRef CachedPropertyIdRef.configurable,
          if attributes.testBit 2 = false then
            isolateShim.GetCurrentContextShim.GetTrue
          else isolateShim.GetCurrentContextShim.GetFalse)] ++
      requestedRef isolateShim CachedPropertyIdRef.value value := by
    cases attributes.testBit 0 <;> cases attributes.testBit 1 <;>
      cases attributes.testBit 2 <;>
      simp [requestedProperties, requestedFlag, requestedRef]
  refine ⟨⟨rfl, rfl, rfl⟩, hrun, ⟨?_, ?_, ?_⟩, hasked, ?_⟩
  · show (if attributes.testBit 0 = false then _ else _) ≠ _
    split <;> decide
  · show (if attributes.testBit 1 = false then _ else _) ≠ _
    split <;> decide
  · show (if attributes.testBit 2 = false then _ else _) ≠ _
    split <;> decide
  · intro ev hev
    simp only [hrun] at hev
    have := CreatePropertyDescriptor_events E isolateShim _ _ _ value
      JS_INVALID_REFERENCE JS_INVALID_REFERENCE w ev hev
    rw [hasked] at this
    exact this

/-- C12, at a concrete input: the attributes `ReadOnly | DontDelete`
(bits 0 and 2), value `9`, getter `77` and setter `88`.  The descriptor gets
writable false, enumerable true, configurable false and the value; neither
`get` nor `set` is set. -/
theorem CreatePropertyDescriptorFromAttributes_maps_bits_witness :
    (CreatePropertyDescriptorFromAttributes testEngine testIsolate 5 9 77 88
      (start [])).1 = (JsNoError, 800) ∧
    (CreatePropertyDescriptorFromAttributes testEngine testIsolate 5 9 77 88
      (start [])).2.trace =
      [(Call.JsCreateObject, JsNoError),
       (Call.JsSetProperty 800 21 12 false, JsNoError),
       (Call.JsSetProperty 800 22 11 false, JsNoError),
       (Call.JsSetProperty 800 23 12 false, JsNoError),
       (Call.JsSetProperty 800 24 9 false, JsNoError)] := by
  rw [(CreatePropertyDescriptorFromAttributes_maps_bits testEngine testIsolate
    5 9 77 88 (start [])).2.1]
  decide

end jsrt
